import Mathlib

/-!
Verification development for `export_critiques_to_tex.py`, a script that
converts a JSON array of "problem critique" records into a LaTeX report.

The script is embedded shallowly:
  * JSON values become the inductive type `JVal`.
  * Python dictionary/`in`/subscript/iteration operations become explicit
    functions; operations that can raise in Python (attribute access on a
    non-dict, `in` on a non-container, subscripting a string with a string,
    iterating a non-iterable) return `Except String _`, with the error string
    naming the Python exception class.
  * The regex substitutions of `format_tex_display_math` are all of the
    anchored form `^pre(.*)suf$` with literal `pre`/`suf`; since `.` does not
    match a newline and every input handed to `re.sub` in that function has
    been `.strip()`ed (so it has no trailing newline for `$` to sneak before),
    each substitution either strips the literal prefix/suffix pair when the
    whole string matches, or leaves the string unchanged.  `subAnchored`
    models exactly that.
  * Python `str.strip()` becomes `pyStrip` on `List Char` (dropping
    `Char.isWhitespace` characters from both ends; Python additionally strips
    `\x0b`/`\x0c` and some unicode spaces, which no claim exercises).
-/

/-- A JSON value, as produced by `json.load`.  Objects keep their key order;
keys coming from `json.load` are unique. Floats do not occur in any claim and
are omitted. -/
inductive JVal where
  | null
  | bool (b : Bool)
  | int (n : Int)
  | str (s : String)
  | arr (xs : List JVal)
  | dict (kvs : List (String × JVal))

/-- First-match association lookup, the semantics of Python `dict` access for
the unique-key dictionaries produced by `json.load`. -/
def dGetD (kvs : List (String × JVal)) (k : String) (d : JVal) : JVal :=
  match kvs.find? (fun kv => kv.1 == k) with
  | some kv => kv.2
  | none => d

/-- Whether a key is present in a Python dict. -/
def dHas (kvs : List (String × JVal)) (k : String) : Bool :=
  kvs.any (fun kv => kv.1 == k)

/-- Python `obj.get(k, d)`: succeeds on a dict, raises `AttributeError` on
anything else. -/
def pyGet (v : JVal) (k : String) (d : JVal) : Except String JVal :=
  match v with
  | .dict kvs => .ok (dGetD kvs k d)
  | _ => .error "AttributeError"

/-- Membership of a string among JSON values, as Python `==` compares a `str`
with each element: only an equal string compares equal. -/
def strElem (k : String) : List JVal → Bool
  | [] => false
  | .str s :: rest => s == k || strElem k rest
  | _ :: rest => strElem k rest

/-- Python `k in v` for a string `k`: substring test on a string, element
test on a list, key test on a dict, `TypeError` on `int`/`bool`/`None`. -/
def pyIn (k : String) (v : JVal) : Except String Bool :=
  match v with
  | .str s => .ok (decide (k.data <:+: s.data))
  | .arr xs => .ok (strElem k xs)
  | .dict kvs => .ok (dHas kvs k)
  | _ => .error "TypeError"

/-- Python `v[k]` for a string key `k`: dict lookup (raising `KeyError` when
absent); a string or list subscripted with a string, or a scalar subscript,
raises `TypeError`. -/
def pySubscript (v : JVal) (k : String) : Except String JVal :=
  match v with
  | .dict kvs =>
    match kvs.find? (fun kv => kv.1 == k) with
    | some kv => .ok kv.2
    | none => .error "KeyError"
  | _ => .error "TypeError"

/-- Python truthiness of a JSON value. -/
def truthy : JVal → Bool
  | .null => false
  | .bool b => b
  | .int n => n != 0
  | .str s => !s.isEmpty
  | .arr xs => !xs.isEmpty
  | .dict kvs => !kvs.isEmpty

/-- Python `for x in v`: a list yields its elements, a string its characters
(as one-character strings), a dict its keys; scalars raise `TypeError`. -/
def pyIter : JVal → Except String (List JVal)
  | .arr xs => .ok xs
  | .str s => .ok (s.data.map fun c => .str (String.singleton c))
  | .dict kvs => .ok (kvs.map fun kv => .str kv.1)
  | _ => .error "TypeError"

/-- Python `str(v)`/f-string interpolation.  Exact on `str`, `int`, `bool`,
`None`; for lists and dicts it is Python `repr` modelled without the escaping
`repr` performs inside string literals (no claim depends on those texts). -/
def pyRepr : JVal → String
  | .null => "None"
  | .bool b => if b then "True" else "False"
  | .int n => toString n
  | .str s => "\x27" ++ s ++ "\x27"
  | .arr xs => "[" ++ pyReprElems xs ++ "]"
  | .dict kvs => "\x7b" ++ pyReprKvs kvs ++ "\x7d"
where
  pyReprElems : List JVal → String
    | [] => ""
    | [x] => pyRepr x
    | x :: rest => pyRepr x ++ ", " ++ pyReprElems rest
  pyReprKvs : List (String × JVal) → String
    | [] => ""
    | [kv] => "\x27" ++ kv.1 ++ "\x27: " ++ pyRepr kv.2
    | kv :: rest => "\x27" ++ kv.1 ++ "\x27: " ++ pyRepr kv.2 ++ ", " ++ pyReprKvs rest

/-- Python `str(v)` as used by an f-string: a string interpolates as itself,
every other value through `pyRepr`. -/
def pyStr : JVal → String
  | .str s => s
  | v => pyRepr v

/-- The six characters of the regex class `[&%$#_{}]` in `escape_latex`. -/
def isReservedChar (c : Char) : Bool :=
  c == '&' || c == '%' || c == '$' || c == '#' || c == '_' || c == '\x7b' || c == '\x7d'

/-- The replacement `re.sub(r'([&%$#_{}])', r'\\\1', text)` performs on one
character: a reserved character gains a single leading backslash. -/
def escPiece (c : Char) : List Char :=
  if isReservedChar c then ['\\', c] else [c]

/-- `escape_latex` (source lines 6-12): non-strings map to the empty string;
in a string every reserved character is prefixed with one backslash. -/
def escape_latex (v : JVal) : String :=
  match v with
  | .str s => ⟨s.data.flatMap escPiece⟩
  | _ => ""

/-- Python `str.strip()` on the character list of a string. -/
def pyStrip (l : List Char) : List Char :=
  ((l.dropWhile Char.isWhitespace).reverse.dropWhile Char.isWhitespace).reverse

/-- One substitution `re.sub(r'^pre(.*)suf$', r'\1', text)` of
`format_tex_display_math`, for literal delimiter strings `pre`/`suf` and an
input with no trailing newline (every call site strips first): the whole
string matches exactly when it carries the prefix and the suffix without
overlap and the part in between contains no newline (`.` does not cross a
newline); then the match is replaced by the captured middle, else the string
is unchanged. -/
def subAnchored (pre suf text : List Char) : List Char :=
  let mid := (text.drop pre.length).take (text.length - (pre.length + suf.length))
  if pre.length + suf.length ≤ text.length ∧ pre <+: text ∧ suf <:+ text ∧ '\n' ∉ mid
  then mid else text

/-- The delimiter-stripping pipeline of `format_tex_display_math`
(source lines 21-27): strip, then unwrap each of the four delimiter pairs
once in order, stripping after each substitution. -/
def innerChars (l : List Char) : List Char :=
  let t0 := pyStrip l
  let t1 := pyStrip (subAnchored "\\[".data "\\]".data t0)
  let t2 := pyStrip (subAnchored "\\(".data "\\)".data t1)
  let t3 := pyStrip (subAnchored "$$".data "$$".data t2)
  pyStrip (subAnchored "$".data "$".data t3)

/-- The full body of `format_tex_display_math` on a character list: the
stripped/unwrapped text in a single display-math block (source line 29). -/
def formatChars (l : List Char) : List Char :=
  "\\[ ".data ++ innerChars l ++ " \\]".data

/-- `format_tex_display_math` (source lines 14-29): the empty string on a
non-string input, otherwise the stripped/unwrapped/wrapped text. -/
def format_tex_display_math (v : JVal) : String :=
  match v with
  | .str s => ⟨formatChars s.data⟩
  | _ => ""

/-- The literal `'\boxed{'` the solution-fixing block searches for. -/
def boxedTok : List Char := "\\boxed\x7b".data

/-- The boxed-brace repair applied to a solution string (source lines
205-212 and 265-272): when the string contains `\boxed{` and its brace
counts differ with more `{` than `}`, append the difference in `}`;
otherwise leave it unchanged. -/
def fixBoxedBraces (l : List Char) : List Char :=
  if boxedTok <:+: l then
    if l.count '\x7b' ≠ l.count '\x7d' then
      if l.count '\x7d' < l.count '\x7b' then
        l ++ List.replicate (l.count '\x7b' - l.count '\x7d') '\x7d'
      else l
    else l
  else l

/-- The solution-rendering block of `generate_critiques_section`
(brace repair followed by `format_tex_display_math`), as a function of the
solution value.  The Python paths per type:
  * a string goes through the repair and the formatter;
  * a list: the membership test succeeds (elements equal to the string
    `'\boxed{'`), `list.count`/`list += str` are legal, and the value stays a
    non-string, so `format_tex_display_math` returns `""`;
  * a dict: `'\boxed{' in d` tests the keys; when the key is present the next
    line calls `.count` on a dict and raises `AttributeError`, otherwise the
    block is skipped and the formatter returns `""`;
  * `int`/`bool`/`None`: the membership test raises `TypeError`. -/
def solutionBlock (v : JVal) : Except String String :=
  match v with
  | .str s => .ok ⟨formatChars (fixBoxedBraces s.data)⟩
  | .arr _ => .ok ""
  | .dict kvs => if dHas kvs "\\boxed\x7b" then .error "AttributeError" else .ok ""
  | _ => .error "TypeError"

/-- The counter record built by `generate_summary_table` (source lines
61-66): pass/fail per category, plus a removed counter for `difficulty` and
`useful_derivation` and success/fail for `refinement`. -/
structure Stats where
  sc_pass : Nat := 0
  sc_fail : Nat := 0
  diff_pass : Nat := 0
  diff_fail : Nat := 0
  diff_removed : Nat := 0
  ud_pass : Nat := 0
  ud_fail : Nat := 0
  ud_removed : Nat := 0
  ref_success : Nat := 0
  ref_fail : Nat := 0
deriving DecidableEq, Repr

/-- The zero-initialised `stats` dictionary. -/
def initStats : Stats := {}

/-- The guard `"k" in critiques and isinstance(critiques["k"], dict)` opening
each of the first three tally blocks (source lines 73, 80, 88): `.ok none`
when the category is skipped (key absent, or stored value not a dict),
`.ok (some kvs)` when the critique dict is found.  The Python short-circuit
becomes nested matches: the membership test may raise, and the subscript runs
only when it returned true (and itself raises when `critiques` is a string or
list). -/
def catLookup (k : String) (critiques : JVal) : Except String (Option (List (String × JVal))) :=
  match pyIn k critiques with
  | .error e => .error e
  | .ok false => .ok none
  | .ok true =>
    match pySubscript critiques k with
    | .error e => .error e
    | .ok (.dict kvs) => .ok (some kvs)
    | .ok _ => .ok none

/-- The self-containment block of the tally loop (source lines 73-77). -/
def scStep (critiques : JVal) (st : Stats) : Except String Stats :=
  match catLookup "self_containment" critiques with
  | .error e => .error e
  | .ok none => .ok st
  | .ok (some kvs) =>
    if truthy (dGetD kvs "is_self_contained" (.bool false)) then
      .ok { st with sc_pass := st.sc_pass + 1 }
    else
      .ok { st with sc_fail := st.sc_fail + 1 }

/-- The difficulty block of the tally loop (source lines 80-86): a removed
record increments `removed`, otherwise the `is_non_trivial` flag decides
pass or fail. -/
def diffStep (isRemoved : Bool) (critiques : JVal) (st : Stats) : Except String Stats :=
  match catLookup "difficulty" critiques with
  | .error e => .error e
  | .ok none => .ok st
  | .ok (some kvs) =>
    if isRemoved then
      .ok { st with diff_removed := st.diff_removed + 1 }
    else if truthy (dGetD kvs "is_non_trivial" (.bool false)) then
      .ok { st with diff_pass := st.diff_pass + 1 }
    else
      .ok { st with diff_fail := st.diff_fail + 1 }

/-- The useful-derivation block of the tally loop (source lines 88-94):
`removed` is incremented only when the record is removed AND
`.get("is_useful_derivation", True)` is falsy; otherwise
`.get("is_useful_derivation", False)` decides pass or fail. -/
def udStep (isRemoved : Bool) (critiques : JVal) (st : Stats) : Except String Stats :=
  match catLookup "useful_derivation" critiques with
  | .error e => .error e
  | .ok none => .ok st
  | .ok (some kvs) =>
    if isRemoved && !truthy (dGetD kvs "is_useful_derivation" (.bool true)) then
      .ok { st with ud_removed := st.ud_removed + 1 }
    else if truthy (dGetD kvs "is_useful_derivation" (.bool false)) then
      .ok { st with ud_pass := st.ud_pass + 1 }
    else
      .ok { st with ud_fail := st.ud_fail + 1 }

/-- The refinement block of the tally loop (source lines 97-102): skipped for
removed records; otherwise success exactly when `refined_problem` (defaulting
to an empty dict when the key is absent) is a dict without an `error` key. -/
def refStep (isRemoved : Bool) (entry : JVal) (st : Stats) : Except String Stats :=
  if isRemoved then .ok st
  else
    match pyGet entry "refined_problem" (.dict []) with
    | .error e => .error e
    | .ok (.dict kvs) =>
      if dHas kvs "error" then .ok { st with ref_fail := st.ref_fail + 1 }
      else .ok { st with ref_success := st.ref_success + 1 }
    | .ok _ => .ok { st with ref_fail := st.ref_fail + 1 }

/-- One iteration of the tally loop of `generate_summary_table`
(source lines 68-102), factored into the four per-category blocks. -/
def tabStep (st : Stats) (entry : JVal) : Except String Stats :=
  match pyGet entry "critiques" (.dict []) with
  | .error e => .error e
  | .ok critiques =>
    match pyGet entry "removed" (.bool false) with
    | .error e => .error e
    | .ok removedV =>
      let isRemoved := truthy removedV
      match scStep critiques st with
      | .error e => .error e
      | .ok st1 =>
        match diffStep isRemoved critiques st1 with
        | .error e => .error e
        | .ok st2 =>
          match udStep isRemoved critiques st2 with
          | .error e => .error e
          | .ok st3 => refStep isRemoved entry st3

/-- The whole tally loop over the record list. -/
def tabFold (entries : List JVal) : Except String Stats :=
  entries.foldlM tabStep initStats

/-- Round-half-to-even of the rational `a / t` to the nearest integer,
for `t > 0`. -/
def roundHalfEven (a t : Nat) : Nat :=
  let q := a / t
  let r := a % t
  if 2 * r < t then q
  else if t < 2 * r then q + 1
  else if q % 2 = 0 then q else q + 1

/-- Rendering of a number of tenths as a one-decimal percentage,
e.g. `333 ↦ "33.3\%"`. -/
def fmtTenths (n : Nat) : String :=
  toString (n / 10) ++ "." ++ toString (n % 10) ++ "\\%"

/-- The pass-rate cell (source line 130):
`f"{(pass_count / total * 100):.1f}\\%" if total > 0 else "N/A"`.
The Python expression computes `pass/total*100` in IEEE doubles and formats
the double to one decimal; this model formats the exact rational value
`1000*pass/total` tenths rounded half-to-even, which agrees with the double
path for the report-sized counts the claims exercise. -/
def passRateStr (passCount total : Nat) : String :=
  if 0 < total then fmtTenths (roundHalfEven (1000 * passCount) total) else "N/A"

/-- One data row of the summary table (source line 132):
`name & pass & fail & removed & rate \\`. -/
def summaryLine (name : String) (passCount failCount removedCount : Nat) : String :=
  name ++ " & " ++ toString passCount ++ " & " ++ toString failCount ++ " & " ++
    toString removedCount ++ " & " ++ passRateStr passCount (passCount + failCount + removedCount) ++
    " \\\\\n"

/-- The fixed preamble of the summary table (source lines 105-115). -/
def summaryTableHeader : String :=
  "\n\\section*\x7bSummary Statistics\x7d\n\\begin\x7bcenter\x7d\n\\begin\x7blongtable\x7d\x7b|l|c|c|c|c|\x7d\n\\hline\n\\textbf\x7bCritique Type\x7d & \\textbf\x7bPass\x7d & \\textbf\x7bFail\x7d & \\textbf\x7bRemoved\x7d & \\textbf\x7bPass Rate\x7d \\\\\n\\hline\n\\endfirsthead\n\\hline\n\\endfoot\n"

/-- The fixed close of the summary table (source lines 134-137). -/
def summaryTableFooter : String :=
  "\\hline\n\\end\x7blongtable\x7d\n\\end\x7bcenter\x7d\n"

/-- The row-emitting loop of `generate_summary_table` (source lines 117-132).
The loop walks the `stats` dict in insertion order; the first three row names
are `critique_type.replace("_", " ").title()` passed through `escape_latex`,
written out here for the three fixed keys; the `refinement` row uses the
literal name and a removed count of 0. -/
def generate_summary_table (st : Stats) : String :=
  summaryTableHeader ++
  summaryLine (escape_latex (.str "Self Containment")) st.sc_pass st.sc_fail 0 ++
  summaryLine (escape_latex (.str "Difficulty")) st.diff_pass st.diff_fail st.diff_removed ++
  summaryLine (escape_latex (.str "Useful Derivation")) st.ud_pass st.ud_fail st.ud_removed ++
  summaryLine "Refinement Success" st.ref_success st.ref_fail 0 ++
  summaryTableFooter

/-- The per-category status flag and label of `format_critique_section`
(source lines 147-158), computed from the critique dict. -/
def critStatus (ctype : String) (kvs : List (String × JVal)) : Bool × String :=
  if ctype == "self_containment" then
    let s := truthy (dGetD kvs "is_self_contained" (.bool false))
    (s, if s then "Self-contained" else "Not self-contained")
  else if ctype == "difficulty" then
    let s := truthy (dGetD kvs "is_non_trivial" (.bool false))
    (s, if s then "Non-trivial" else "Trivial")
  else if ctype == "useful_derivation" then
    let s := truthy (dGetD kvs "is_useful_derivation" (.bool false))
    (s, if s then "Useful" else "Useless")
  else (false, "Unknown")

/-- One iteration of the issues loop (source lines 172-177): `.get` on the
issue raises `AttributeError` when the issue is not a dict. -/
def renderIssue (issue : JVal) : Except String String :=
  match pyGet issue "finding" (.str "") with
  | .error e => .error e
  | .ok finding =>
    match pyGet issue "suggestion" (.str "") with
    | .error e => .error e
    | .ok suggestion =>
      .ok ("\\item \\textbf\x7bFinding:\x7d " ++ pyStr finding ++ "\\\\\n" ++
           "\\textbf\x7bSuggestion:\x7d " ++ pyStr suggestion ++ "\n")

/-- The notice emitted when a critique value is not a dict or carries an
`error` key (source line 181). -/
def critErrorNotice : String :=
  "\\textcolor\x7bfail\x7d\x7b\\textbf\x7bError parsing critique\x7d\x7d\n\n"

/-- `format_critique_section` (source lines 141-183): status label, free-text
critique, and the optional issues list; the issues list is iterated only when
it is truthy, and iterating a non-iterable or `.get`-ing a non-dict issue
raises. -/
def format_critique_section (ctype : String) (cdata : JVal) : Except String String :=
  match cdata with
  | .dict kvs =>
    if dHas kvs "error" then .ok critErrorNotice
    else
      let st := critStatus ctype kvs
      let color := if st.1 then "pass" else "fail"
      let body :=
        "\\textcolor\x7b" ++ color ++ "\x7d\x7b\\textbf\x7bStatus: " ++ st.2 ++ "\x7d\x7d\n\n" ++
        pyStr (dGetD kvs "critique" (.str "No critique provided")) ++ "\n\n"
      let issuesV := dGetD kvs "issues" (.arr [])
      if truthy issuesV then
        match pyIter issuesV with
        | .error e => .error e
        | .ok issues =>
          match issues.foldlM (fun acc issue => (renderIssue issue).map (acc ++ ·)) "" with
          | .error e => .error e
          | .ok items =>
            .ok (body ++ "\\textbf\x7bIssues found:\x7d\n\\begin\x7bitemize\x7d\n" ++ items ++
                 "\\end\x7bitemize\x7d\n")
      else .ok body
  | _ => .ok critErrorNotice

/-- One of the three guarded critique paragraphs of
`generate_critiques_section` (source lines 222-236): emitted only when the
category key passes the `in` test, subscripting the critiques value then. -/
def appendCritique (acc : String) (key title : String) (critiques : JVal) : Except String String :=
  match pyIn key critiques with
  | .error e => .error e
  | .ok false => .ok acc
  | .ok true =>
    match pySubscript critiques key with
    | .error e => .error e
    | .ok v =>
      match format_critique_section key v with
      | .error e => .error e
      | .ok s => .ok (acc ++ "\\paragraph*\x7b" ++ title ++ ":\x7d\n" ++ s ++ "\n")

/-- The removal notice (source lines 244-245), with the reason value passed
through `escape_latex`. -/
def removalNotice (reasonV : JVal) : String :=
  "\\subsubsection*\x7bProblem Status\x7d\n\\textcolor\x7bfail\x7d\x7b\\textbf\x7bREMOVED: " ++
    escape_latex reasonV ++ "\x7d\x7d\n\n"

/-- The fixed exclusion notice (source lines 247-248). -/
def exclusionNotice : String :=
  "\\subsubsection*\x7bProblem Status\x7d\n\\textcolor\x7bfail\x7d\x7b\\textbf\x7bEXCLUDED: Trivial problem - refinement failed\x7d\x7d\n\n"

/-- The heading that opens the refined-problem branch (source line 250). -/
def refinedHeader : String := "\\subsubsection*\x7bRefined Problem\x7d\n"

/-- The heading shared by the removal and exclusion notices. -/
def statusHeader : String := "\\subsubsection*\x7bProblem Status\x7d"

/-- The notice for an absent/error refined problem (source line 276). -/
def errRefiningNotice : String :=
  "\\textcolor\x7bfail\x7d\x7b\\textbf\x7bError refining problem\x7d\x7d\n\n"

/-- The outcome subsection of `generate_critiques_section` (source lines
239-276), factored out of the per-record loop: `refined_problem`, `removed`
and `included_in_dataset` are read first, then the three-way branch runs. -/
def renderOutcome (entry : JVal) : Except String String :=
  match pyGet entry "refined_problem" (.dict []) with
  | .error e => .error e
  | .ok refined =>
    match pyGet entry "removed" (.bool false) with
    | .error e => .error e
    | .ok removedV =>
      match pyGet entry "included_in_dataset" (.bool true) with
      | .error e => .error e
      | .ok includedV =>
        if truthy removedV then
          match pyGet entry "removal_reason" (.str "Marked for removal") with
          | .error e => .error e
          | .ok reasonV => .ok (removalNotice reasonV)
        else if !truthy includedV then .ok exclusionNotice
        else
          match refined with
          | .dict kvs =>
            if dHas kvs "error" then .ok (refinedHeader ++ errRefiningNotice)
            else
              let pk := if dHas kvs "problem_statement" then "problem_statement" else "question"
              let sk := if dHas kvs "final_solution" then "final_solution" else "answer"
              let rp := dGetD kvs pk (.str "No refined problem statement")
              let rs := dGetD kvs sk (.str "No solution")
              match solutionBlock rs with
              | .error e => .error e
              | .ok rsB =>
                .ok (refinedHeader ++ "\\paragraph*\x7bRefined Problem Statement:\x7d\n" ++
                     pyStr rp ++ "\n\n" ++ "\\paragraph*\x7bRefined Solution:\x7d\n" ++ rsB ++ "\n\n")
          | _ => .ok (refinedHeader ++ errRefiningNotice)

/-- The body of the per-record loop of `generate_critiques_section`
(source lines 189-278) for the record at 0-based position `i`. -/
def renderEntry (i : Nat) (entry : JVal) : Except String String :=
  match pyGet entry "paper_id" (.str "N/A") with
  | .error e => .error e
  | .ok paperIdV =>
    match pyGet entry "problem_index" (.int 0) with
    | .error e => .error e
    | .ok problemIndexV =>
      let acc :=
        "\\subsection*\x7bProblem " ++ toString (i + 1) ++ " (Paper: " ++
        escape_latex paperIdV ++ ", Index: " ++ pyStr problemIndexV ++ ")\x7d\n\n"
      match pyGet entry "original_problem" (.dict []) with
      | .error e => .error e
      | .ok original =>
        match pyGet original "problem_statement" (.str "No problem statement") with
        | .error e => .error e
        | .ok problemStatementV =>
          let acc := acc ++ "\\subsubsection*\x7bOriginal Problem Statement\x7d\n" ++
            pyStr problemStatementV ++ "\n\n" ++ "\\subsubsection*\x7bOriginal Solution\x7d\n"
          match pyGet original "final_solution" (.str "No solution") with
          | .error e => .error e
          | .ok finalSolutionV =>
            match solutionBlock finalSolutionV with
            | .error e => .error e
            | .ok sol =>
              let acc := acc ++ sol ++ "\n\n" ++ "\\subsubsection*\x7bCritiques\x7d\n"
              match pyGet entry "critiques" (.dict []) with
              | .error e => .error e
              | .ok critiques =>
                match appendCritique acc "self_containment" "Self-Containment Critique" critiques with
                | .error e => .error e
                | .ok acc =>
                  match appendCritique acc "difficulty" "Difficulty Critique" critiques with
                  | .error e => .error e
                  | .ok acc =>
                    match appendCritique acc "useful_derivation" "Useful Derivation Critique" critiques with
                    | .error e => .error e
                    | .ok acc =>
                      match renderOutcome entry with
                      | .error e => .error e
                      | .ok outcome => .ok (acc ++ outcome ++ "\\newpage\n")

/-- `generate_critiques_section` (source lines 185-280) over an already
materialised record list: the section header followed by each record's
rendering in order. -/
def generate_critiques_section (entries : List JVal) : Except String String :=
  entries.enum.foldlM
    (fun acc ie => (renderEntry ie.1 ie.2).map (acc ++ ·))
    "\\section*\x7bProblem Details\x7d\n\n"

/-- The fixed document preamble `TEX_TEMPLATE_HEADER` (source lines 31-53). -/
def TEX_TEMPLATE_HEADER : String :=
  "\n\\documentclass[10pt]\x7barticle\x7d\n\\usepackage[utf8]\x7binputenc\x7d\n\\usepackage\x7bamsmath\x7d\n\\usepackage\x7bamssymb\x7d\n\\usepackage\x7bgeometry\x7d\n\\usepackage\x7bxcolor\x7d\n\\usepackage\x7blongtable\x7d\n\\usepackage\x7barray\x7d\n\\usepackage\x7blmodern\x7d\n\n\\geometry\x7ba4paper, margin=1in\x7d\n\n\\definecolor\x7bpass\x7d\x7bHTML\x7d\x7b28a745\x7d\n\\definecolor\x7bfail\x7d\x7bHTML\x7d\x7bDC3545\x7d\n\n\\title\x7bProblem Refinement Critiques Report\x7d\n\\author\x7bGenerated by script\x7d\n\\date\x7b\\today\x7d\n\n\\begin\x7bdocument\x7d\n\\maketitle\n"

/-- The fixed document close `TEX_TEMPLATE_FOOTER` (source lines 55-57). -/
def TEX_TEMPLATE_FOOTER : String := "\n\\end\x7bdocument\x7d\n"

/-- The document generation `export_critiques_to_tex` performs after a
successful load (source lines 293-301).  The source iterates the parsed
value twice, once in `generate_summary_table` and once in
`generate_critiques_section`; both walks see the same elements, so the
iteration is materialised once here.  Any Python exception raised while
tallying or rendering propagates. -/
def generateDocument (data : JVal) : Except String String :=
  match pyIter data with
  | .error e => .error e
  | .ok entries =>
    match tabFold entries with
    | .error e => .error e
    | .ok st =>
      match generate_critiques_section entries with
      | .error e => .error e
      | .ok sections =>
        .ok (TEX_TEMPLATE_HEADER ++ generate_summary_table st ++ sections ++ TEX_TEMPLATE_FOOTER)

/-- Observable outcome of one run of `export_critiques_to_tex` (source lines
282-308): `missingFile` carries the printed error of the early return,
`written` the text written to the output path together with the two printed
messages, `raised` a propagating exception — in which case nothing is
written, since the output file is only opened after generation succeeds. -/
inductive RunResult where
  | missingFile (printed : String)
  | written (document : String) (printed : List String)
  | raised (exc : String)
deriving DecidableEq

/-- `export_critiques_to_tex` (source lines 282-308) over an abstract input
state: `none` models a missing input file, `some data` an existing file whose
contents parse as the JSON value `data` (a file whose contents fail to parse
raises inside `json.load`, outside this model). -/
def export_critiques_to_tex (inputPath outputPath : String) (contents : Option JVal) : RunResult :=
  match contents with
  | none => .missingFile ("Error: Critiques file not found at \x27" ++ inputPath ++ "\x27")
  | some data =>
    match generateDocument data with
    | .error e => .raised e
    | .ok doc =>
      .written doc
        ["LaTeX critiques report successfully generated at \x27" ++ outputPath ++ "\x27",
         "You can now compile this file using a LaTeX distribution (like pdflatex) to create a PDF."]

/-- Specification-side inverse of the escaper: drop a backslash exactly when
it immediately precedes a reserved character.  `unescapeChars` recovering the
original text witnesses that `escape_latex` put exactly one marker before
each reserved character and altered nothing else. -/
def unescapeChars : List Char → List Char
  | [] => []
  | [c] => [c]
  | a :: c :: rest =>
    if a == '\\' && isReservedChar c then c :: unescapeChars rest
    else a :: unescapeChars (c :: rest)

/-- A solution value on which the boxed-brace block and the formatter run
without raising: a string or a list always work; a dict works unless
`'\boxed{'` is one of its keys (then `.count` is called on a dict); scalars
raise in the membership test. -/
def goodSolution : JVal → Bool
  | .str _ => true
  | .arr _ => true
  | .dict kvs => !dHas kvs "\\boxed\x7b"
  | _ => false

/-- An issues value `format_critique_section` survives: either falsy (the
loop is skipped) or a list whose elements are all dicts. -/
def goodIssues (v : JVal) : Bool :=
  !truthy v ||
    (match v with
     | .arr xs => xs.all (fun x => match x with | .dict _ => true | _ => false)
     | _ => false)

/-- A critique value `format_critique_section` survives: non-dicts and
error-marked dicts produce the fixed notice, other dicts need a survivable
issues value. -/
def goodCritVal : JVal → Bool
  | .dict kvs => dHas kvs "error" || goodIssues (dGetD kvs "issues" (.arr []))
  | _ => true

/-- One critique category survives the renderer: either its key is absent
from the critiques dict, or the stored value is survivable. -/
def goodCritEntry (ckvs : List (String × JVal)) (k : String) : Bool :=
  !dHas ckvs k || goodCritVal (dGetD ckvs k .null)

/-- A record shape on which `renderEntry` raises nothing: the record is a
dict; `original_problem` defaults or is a dict whose `final_solution` value
is survivable; `critiques` defaults or is a dict whose three known category
values are survivable; and — when the record is neither removed nor
excluded — its refined problem, when a dict without an `error` key, stores a
survivable solution value.  Keys may freely be absent: every access has a
default. -/
def wellShaped : JVal → Bool
  | .dict ekvs =>
    (match dGetD ekvs "original_problem" (.dict []) with
     | .dict okvs => goodSolution (dGetD okvs "final_solution" (.str "No solution"))
     | _ => false) &&
    (match dGetD ekvs "critiques" (.dict []) with
     | .dict ckvs =>
       goodCritEntry ckvs "self_containment" &&
       goodCritEntry ckvs "difficulty" &&
       goodCritEntry ckvs "useful_derivation"
     | _ => false) &&
    (truthy (dGetD ekvs "removed" (.bool false)) ||
     !truthy (dGetD ekvs "included_in_dataset" (.bool true)) ||
     (match dGetD ekvs "refined_problem" (.dict []) with
      | .dict rkvs =>
        dHas rkvs "error" ||
        goodSolution (dGetD rkvs
          (if dHas rkvs "final_solution" then "final_solution" else "answer")
          (.str "No solution"))
      | _ => true))
  | _ => false

lemma escPiece_head_not_reserved (l : List Char) (h : Char)
    (hh : (l.flatMap escPiece).head? = some h) : isReservedChar h = false := by
  cases l with
  | nil => simp at hh
  | cons c rest =>
    simp only [List.flatMap_cons, escPiece] at hh
    by_cases hc : isReservedChar c
    · simp [hc] at hh
      subst hh
      rfl
    · simp [hc] at hh
      subst hh
      simpa using hc

lemma flatMap_escPiece_eq_nil (l : List Char) (h : l.flatMap escPiece = []) : l = [] := by
  cases l with
  | nil => rfl
  | cons c rest =>
    exfalso
    simp only [List.flatMap_cons, escPiece] at h
    by_cases hc : isReservedChar c <;> simp [hc] at h

lemma unescape_flatMap_escPiece (l : List Char) :
    unescapeChars (l.flatMap escPiece) = l := by
  induction l with
  | nil => rfl
  | cons c rest ih =>
    simp only [List.flatMap_cons]
    by_cases hc : isReservedChar c
    · simp [escPiece, hc, unescapeChars, ih]
    · have hp : escPiece c = [c] := by simp [escPiece, hc]
      rw [hp, List.singleton_append]
      cases hrest : rest.flatMap escPiece with
      | nil =>
        have hr : rest = [] := flatMap_escPiece_eq_nil rest hrest
        subst hr
        rfl
      | cons h t =>
        have hnr : isReservedChar h = false :=
          escPiece_head_not_reserved rest h (by simp [hrest])
        have hstep : unescapeChars (c :: h :: t) = c :: unescapeChars (h :: t) := by
          rw [unescapeChars]
          simp [hnr]
        rw [hstep, ← hrest, ih]

lemma length_flatMap_escPiece (l : List Char) :
    (l.flatMap escPiece).length = l.length + l.countP (fun c => isReservedChar c) := by
  induction l with
  | nil => rfl
  | cons c rest ih =>
    by_cases hc : isReservedChar c <;>
      simp [escPiece, hc, ih, List.countP_cons] <;> omega

/-- C5: for every string input the Text Escaper prefixes each occurrence of
the reserved characters with exactly one backslash and alters no other
character — witnessed by the inverse `unescapeChars` recovering the input
and by the output length exceeding the input length by exactly the number of
reserved occurrences — and for every non-string input it returns `""`. -/
theorem C5_escape_latex_marks_reserved :
    (∀ s : String, unescapeChars (escape_latex (.str s)).data = s.data ∧
      (escape_latex (.str s)).length = s.length + s.data.countP (fun c => isReservedChar c)) ∧
    (∀ v : JVal, (∀ s, v ≠ .str s) → escape_latex v = "") := by
  constructor
  · intro s
    refine ⟨unescape_flatMap_escPiece s.data, ?_⟩
    show (s.data.flatMap escPiece).length = s.data.length + _
    exact length_flatMap_escPiece s.data
  · intro v hv
    cases v with
    | str s => exact absurd rfl (hv s)
    | null => rfl
    | bool b => rfl
    | int n => rfl
    | arr xs => rfl
    | dict kvs => rfl

/-- Closed instance of `C5_escape_latex_marks_reserved`: round-trip on a
concrete string with reserved characters, and `""` on a non-string input. -/
theorem C5_witness :
    unescapeChars (escape_latex (.str "a&b_c 100%")).data = "a&b_c 100%".data ∧
    escape_latex (.int 3) = "" :=
  ⟨(C5_escape_latex_marks_reserved.1 "a&b_c 100%").1,
   C5_escape_latex_marks_reserved.2 (.int 3) (fun _ h => JVal.noConfusion h)⟩

/-- C7: a solution string containing `\boxed{` whose open-brace count exceeds
its close-brace count by `N` gains exactly `N` trailing `}` and becomes
brace-balanced; any other string is left unchanged. -/
theorem C7_brace_repair (l : List Char) :
    (boxedTok <:+: l → l.count '\x7d' < l.count '\x7b' →
      fixBoxedBraces l = l ++ List.replicate (l.count '\x7b' - l.count '\x7d') '\x7d' ∧
      (fixBoxedBraces l).count '\x7b' = (fixBoxedBraces l).count '\x7d') ∧
    (¬ (boxedTok <:+: l ∧ l.count '\x7d' < l.count '\x7b') → fixBoxedBraces l = l) := by
  constructor
  · intro hin hlt
    have hne : l.count '\x7b' ≠ l.count '\x7d' := by omega
    have hfix : fixBoxedBraces l =
        l ++ List.replicate (l.count '\x7b' - l.count '\x7d') '\x7d' := by
      simp only [fixBoxedBraces, if_pos hin, if_pos hne, if_pos hlt]
    refine ⟨hfix, ?_⟩
    rw [hfix]
    simp [List.count_append, List.count_replicate]
    omega
  · intro h
    simp only [fixBoxedBraces]
    split_ifs with h1 h2 h3
    · exact absurd ⟨h1, h3⟩ h
    · rfl
    · rfl
    · rfl

/-- Closed instance of `C7_brace_repair`: `"\boxed{{1"` (two opens, no close)
gains exactly two closing braces; a string without the construct is
unchanged. -/
theorem C7_witness :
    fixBoxedBraces "\\boxed\x7b\x7b1".data =
      "\\boxed\x7b\x7b1".data ++ List.replicate 2 '\x7d' ∧
    fixBoxedBraces "x + \x7by\x7d".data = "x + \x7by\x7d".data := by
  refine ⟨?_, (C7_brace_repair "x + \x7by\x7d".data).2 (by decide)⟩
  have h := ((C7_brace_repair "\\boxed\x7b\x7b1".data).1 (by decide) (by decide)).1
  simpa using h

lemma fmtTenths_ne_NA (n : Nat) : fmtTenths n ≠ "N/A" := by
  intro h
  have hdata : (fmtTenths n).data =
      ((toString (n / 10) ++ "." ++ toString (n % 10)).data ++ ['\\']) ++ ['%'] := by
    simp [fmtTenths]
  have hlast : (fmtTenths n).data.getLast? = some '%' := by
    rw [hdata, List.getLast?_concat]
  rw [h] at hlast
  simp at hlast

lemma roundHalfEven_close (a t : Nat) (ht : 0 < t) :
    |(roundHalfEven a t : ℚ) - (a : ℚ) / t| ≤ 1 / 2 := by
  have htq : (0 : ℚ) < (t : ℚ) := by exact_mod_cast ht
  have hmod : t * (a / t) + a % t = a := Nat.div_add_mod a t
  have hrt : a % t < t := Nat.mod_lt a ht
  have hq : (t : ℚ) * ((a / t : Nat) : ℚ) + ((a % t : Nat) : ℚ) = (a : ℚ) := by
    exact_mod_cast hmod
  have key : (a : ℚ) / t = ((a / t : Nat) : ℚ) + ((a % t : Nat) : ℚ) / t := by
    field_simp
    linarith
  have hr0 : (0 : ℚ) ≤ ((a % t : Nat) : ℚ) / t := by positivity
  have hr1 : ((a % t : Nat) : ℚ) / t ≤ 1 := by
    rw [div_le_one htq]
    exact_mod_cast Nat.le_of_lt hrt
  rw [abs_sub_le_iff, key]
  simp only [roundHalfEven]
  split_ifs with h1 h2 h3
  · have hc : 2 * ((a % t : Nat) : ℚ) ≤ (t : ℚ) := by exact_mod_cast Nat.le_of_lt h1
    have hh : ((a % t : Nat) : ℚ) / t ≤ 1 / 2 := by
      rw [div_le_div_iff₀ htq (by norm_num : (0 : ℚ) < 2)]
      linarith
    constructor <;> linarith
  · have hc : (t : ℚ) ≤ 2 * ((a % t : Nat) : ℚ) := by exact_mod_cast Nat.le_of_lt h2
    have hh : 1 / 2 ≤ ((a % t : Nat) : ℚ) / t := by
      rw [div_le_div_iff₀ (by norm_num : (0 : ℚ) < 2) htq]
      linarith
    constructor <;> push_cast <;> linarith
  · have h2r : 2 * (a % t) = t := by omega
    have hc : 2 * ((a % t : Nat) : ℚ) = (t : ℚ) := by exact_mod_cast h2r
    have heq : ((a % t : Nat) : ℚ) / t = 1 / 2 := by
      rw [div_eq_div_iff (ne_of_gt htq) (by norm_num : (2 : ℚ) ≠ 0)]
      linarith
    constructor <;> linarith
  · have h2r : 2 * (a % t) = t := by omega
    have hc : 2 * ((a % t : Nat) : ℚ) = (t : ℚ) := by exact_mod_cast h2r
    have heq : ((a % t : Nat) : ℚ) / t = 1 / 2 := by
      rw [div_eq_div_iff (ne_of_gt htq) (by norm_num : (2 : ℚ) ≠ 0)]
      linarith
    constructor <;> push_cast <;> linarith

/-- C8: the pass-rate cell is the not-applicable marker exactly when
pass+fail+removed is zero; for a nonzero denominator it is the one-decimal
rendering of a tenths value within half a tenth of the exact percentage
`100*pass/total` (so `passRateStr 1 3 = "33.3\%"`); and the summary table's
refinement row always renders a removed count of 0. -/
theorem C8_pass_rate (st : Stats) (p t : Nat) :
    (passRateStr p t = "N/A" ↔ t = 0) ∧
    (0 < t → ∃ n : Nat, passRateStr p t = fmtTenths n ∧
      |(n : ℚ) - 1000 * (p : ℚ) / t| ≤ 1 / 2) ∧
    (∃ pre post : String,
      generate_summary_table st =
        pre ++ summaryLine "Refinement Success" st.ref_success st.ref_fail 0 ++ post) ∧
    passRateStr 1 3 = "33.3\\%" := by
  refine ⟨⟨?_, ?_⟩, ?_, ?_, by decide⟩
  · intro h
    by_contra ht
    have ht' : 0 < t := Nat.pos_of_ne_zero ht
    rw [passRateStr, if_pos ht'] at h
    exact fmtTenths_ne_NA _ h
  · intro h
    subst h
    rfl
  · intro ht
    refine ⟨roundHalfEven (1000 * p) t, ?_, ?_⟩
    · rw [passRateStr, if_pos ht]
    · have := roundHalfEven_close (1000 * p) t ht
      have hcast : ((1000 * p : Nat) : ℚ) = 1000 * (p : ℚ) := by push_cast; ring
      rwa [hcast] at this
  · exact ⟨summaryTableHeader ++
      summaryLine (escape_latex (.str "Self Containment")) st.sc_pass st.sc_fail 0 ++
      summaryLine (escape_latex (.str "Difficulty")) st.diff_pass st.diff_fail st.diff_removed ++
      summaryLine (escape_latex (.str "Useful Derivation")) st.ud_pass st.ud_fail st.ud_removed,
      summaryTableFooter, by simp [generate_summary_table, String.append_assoc]⟩

/-- Closed instance of `C8_pass_rate`: the zero-denominator marker and the
concrete one-third rate. -/
theorem C8_witness : passRateStr 0 0 = "N/A" ∧ passRateStr 1 3 = "33.3\\%" :=
  ⟨(C8_pass_rate initStats 0 0).1.2 rfl, (C8_pass_rate initStats 1 3).2.2.2⟩

lemma dHas_eq_isSome_find? (kvs : List (String × JVal)) (k : String) :
    dHas kvs k = (kvs.find? (fun kv => kv.1 == k)).isSome := by
  induction kvs with
  | nil => rfl
  | cons kv rest ih =>
    by_cases h : (kv.1 == k) = true
    · simp [dHas, List.any_cons, h, List.find?_cons_of_pos _ h]
    · have hfc : List.find? (fun kv => kv.1 == k) (kv :: rest) =
          List.find? (fun kv => kv.1 == k) rest := List.find?_cons_of_neg rest h
      rw [hfc, ← ih]
      simp [dHas, List.any_cons, h]

lemma catLookup_dict_none (k : String) (ckvs : List (String × JVal))
    (h : ckvs.find? (fun kv => kv.1 == k) = none ∨
         ∃ kv, ckvs.find? (fun kv => kv.1 == k) = some kv ∧ ∀ kvs, kv.2 ≠ .dict kvs) :
    catLookup k (.dict ckvs) = .ok none := by
  rcases h with h | ⟨kv, hf, hnd⟩
  · have hd : dHas ckvs k = false := by rw [dHas_eq_isSome_find?, h]; rfl
    simp [catLookup, pyIn, hd]
  · have hd : dHas ckvs k = true := by rw [dHas_eq_isSome_find?, hf]; rfl
    have hsub : pySubscript (.dict ckvs) k = .ok kv.2 := by simp [pySubscript, hf]
    cases hv : kv.2 with
    | dict kvs => exact absurd hv (hnd kvs)
    | null => simp [catLookup, pyIn, hd, hsub, hv]
    | bool b => simp [catLookup, pyIn, hd, hsub, hv]
    | int n => simp [catLookup, pyIn, hd, hsub, hv]
    | str s => simp [catLookup, pyIn, hd, hsub, hv]
    | arr xs => simp [catLookup, pyIn, hd, hsub, hv]

lemma catLookup_dict_some (k : String) (ckvs kvs : List (String × JVal)) (kv : String × JVal)
    (hf : ckvs.find? (fun kv => kv.1 == k) = some kv) (hv : kv.2 = .dict kvs) :
    catLookup k (.dict ckvs) = .ok (some kvs) := by
  have hd : dHas ckvs k = true := by rw [dHas_eq_isSome_find?, hf]; rfl
  have hsub : pySubscript (.dict ckvs) k = .ok kv.2 := by simp [pySubscript, hf]
  simp [catLookup, pyIn, hd, hsub, hv]

lemma catLookup_dict_ok (k : String) (ckvs : List (String × JVal)) :
    ∃ r, catLookup k (.dict ckvs) = .ok r := by
  cases hf : ckvs.find? (fun kv => kv.1 == k) with
  | none => exact ⟨none, catLookup_dict_none k ckvs (Or.inl hf)⟩
  | some kv =>
    cases hv : kv.2 with
    | dict kvs => exact ⟨some kvs, catLookup_dict_some k ckvs kvs kv hf hv⟩
    | null => exact ⟨none, catLookup_dict_none k ckvs (Or.inr ⟨kv, hf, by simp [hv]⟩)⟩
    | bool b => exact ⟨none, catLookup_dict_none k ckvs (Or.inr ⟨kv, hf, by simp [hv]⟩)⟩
    | int n => exact ⟨none, catLookup_dict_none k ckvs (Or.inr ⟨kv, hf, by simp [hv]⟩)⟩
    | str s => exact ⟨none, catLookup_dict_none k ckvs (Or.inr ⟨kv, hf, by simp [hv]⟩)⟩
    | arr xs => exact ⟨none, catLookup_dict_none k ckvs (Or.inr ⟨kv, hf, by simp [hv]⟩)⟩

lemma scStep_ok_cases (c : JVal) (st st' : Stats) (h : scStep c st = .ok st') :
    st' = st ∨ st' = { st with sc_pass := st.sc_pass + 1 } ∨
    st' = { st with sc_fail := st.sc_fail + 1 } := by
  cases hc : catLookup "self_containment" c with
  | error e => simp [scStep, hc] at h
  | ok r =>
    cases r with
    | none =>
      simp only [scStep, hc, Except.ok.injEq] at h
      exact Or.inl h.symm
    | some kvs =>
      simp only [scStep, hc] at h
      split at h
      · injection h with h
        exact Or.inr (Or.inl h.symm)
      · injection h with h
        exact Or.inr (Or.inr h.symm)

lemma diffStep_ok_cases (b : Bool) (c : JVal) (st st' : Stats) (h : diffStep b c st = .ok st') :
    st' = st ∨ st' = { st with diff_removed := st.diff_removed + 1 } ∨
    st' = { st with diff_pass := st.diff_pass + 1 } ∨
    st' = { st with diff_fail := st.diff_fail + 1 } := by
  cases hc : catLookup "difficulty" c with
  | error e => simp [diffStep, hc] at h
  | ok r =>
    cases r with
    | none =>
      simp only [diffStep, hc, Except.ok.injEq] at h
      exact Or.inl h.symm
    | some kvs =>
      simp only [diffStep, hc] at h
      split at h
      · injection h with h
        exact Or.inr (Or.inl h.symm)
      · split at h
        · injection h with h
          exact Or.inr (Or.inr (Or.inl h.symm))
        · injection h with h
          exact Or.inr (Or.inr (Or.inr h.symm))

lemma udStep_ok_cases (b : Bool) (c : JVal) (st st' : Stats) (h : udStep b c st = .ok st') :
    st' = st ∨ st' = { st with ud_removed := st.ud_removed + 1 } ∨
    st' = { st with ud_pass := st.ud_pass + 1 } ∨
    st' = { st with ud_fail := st.ud_fail + 1 } := by
  cases hc : catLookup "useful_derivation" c with
  | error e => simp [udStep, hc] at h
  | ok r =>
    cases r with
    | none =>
      simp only [udStep, hc, Except.ok.injEq] at h
      exact Or.inl h.symm
    | some kvs =>
      simp only [udStep, hc] at h
      split at h
      · injection h with h
        exact Or.inr (Or.inl h.symm)
      · split at h
        · injection h with h
          exact Or.inr (Or.inr (Or.inl h.symm))
        · injection h with h
          exact Or.inr (Or.inr (Or.inr h.symm))

lemma refStep_ok_cases (b : Bool) (e : JVal) (st st' : Stats) (h : refStep b e st = .ok st') :
    st' = st ∨ st' = { st with ref_success := st.ref_success + 1 } ∨
    st' = { st with ref_fail := st.ref_fail + 1 } := by
  by_cases hb : b = true
  · simp only [refStep, if_pos hb, Except.ok.injEq] at h
    exact Or.inl h.symm
  · simp only [refStep, if_neg hb] at h
    cases e with
    | dict ekvs =>
      simp only [pyGet] at h
      cases hv : dGetD ekvs "refined_problem" (.dict []) with
      | dict rkvs =>
        rw [hv] at h
        simp only at h
        split at h
        · injection h with h
          exact Or.inr (Or.inr h.symm)
        · injection h with h
          exact Or.inr (Or.inl h.symm)
      | null => rw [hv] at h; injection h with h; exact Or.inr (Or.inr h.symm)
      | bool b2 => rw [hv] at h; injection h with h; exact Or.inr (Or.inr h.symm)
      | int n => rw [hv] at h; injection h with h; exact Or.inr (Or.inr h.symm)
      | str s => rw [hv] at h; injection h with h; exact Or.inr (Or.inr h.symm)
      | arr xs => rw [hv] at h; injection h with h; exact Or.inr (Or.inr h.symm)
    | null => simp [pyGet] at h
    | bool b2 => simp [pyGet] at h
    | int n => simp [pyGet] at h
    | str s => simp [pyGet] at h
    | arr xs => simp [pyGet] at h

lemma scStep_dict_ok (ckvs : List (String × JVal)) (st : Stats) :
    ∃ st1, scStep (.dict ckvs) st = .ok st1 := by
  obtain ⟨r, hr⟩ := catLookup_dict_ok "self_containment" ckvs
  cases r with
  | none => exact ⟨st, by simp [scStep, hr]⟩
  | some kvs =>
    by_cases ht : truthy (dGetD kvs "is_self_contained" (.bool false)) = true
    · refine ⟨{ st with sc_pass := st.sc_pass + 1 }, ?_⟩
      simp [scStep, hr, ht]
    · refine ⟨{ st with sc_fail := st.sc_fail + 1 }, ?_⟩
      simp [scStep, hr, ht]

lemma diffStep_dict_ok (b : Bool) (ckvs : List (String × JVal)) (st : Stats) :
    ∃ st1, diffStep b (.dict ckvs) st = .ok st1 := by
  obtain ⟨r, hr⟩ := catLookup_dict_ok "difficulty" ckvs
  cases r with
  | none => exact ⟨st, by simp [diffStep, hr]⟩
  | some kvs =>
    cases b with
    | true =>
      refine ⟨{ st with diff_removed := st.diff_removed + 1 }, ?_⟩
      simp [diffStep, hr]
    | false =>
      by_cases ht : truthy (dGetD kvs "is_non_trivial" (.bool false)) = true
      · refine ⟨{ st with diff_pass := st.diff_pass + 1 }, ?_⟩
        simp [diffStep, hr, ht]
      · refine ⟨{ st with diff_fail := st.diff_fail + 1 }, ?_⟩
        simp [diffStep, hr, ht]

lemma udStep_dict_ok (b : Bool) (ckvs : List (String × JVal)) (st : Stats) :
    ∃ st1, udStep b (.dict ckvs) st = .ok st1 := by
  obtain ⟨r, hr⟩ := catLookup_dict_ok "useful_derivation" ckvs
  cases r with
  | none => exact ⟨st, by simp [udStep, hr]⟩
  | some kvs =>
    by_cases h1 : (b && !truthy (dGetD kvs "is_useful_derivation" (.bool true))) = true
    · refine ⟨{ st with ud_removed := st.ud_removed + 1 }, ?_⟩
      simp [udStep, hr, h1]
    · by_cases ht : truthy (dGetD kvs "is_useful_derivation" (.bool false)) = true
      · refine ⟨{ st with ud_pass := st.ud_pass + 1 }, ?_⟩
        simp [udStep, hr, h1, ht]
      · refine ⟨{ st with ud_fail := st.ud_fail + 1 }, ?_⟩
        simp [udStep, hr, h1, ht]

lemma refStep_dict_ok (b : Bool) (ekvs : List (String × JVal)) (st : Stats) :
    ∃ st1, refStep b (.dict ekvs) st = .ok st1 := by
  cases b with
  | true => exact ⟨st, by simp [refStep]⟩
  | false =>
    cases hv : dGetD ekvs "refined_problem" (.dict []) with
    | dict rkvs =>
      by_cases he : dHas rkvs "error" = true
      · refine ⟨{ st with ref_fail := st.ref_fail + 1 }, ?_⟩
        simp [refStep, pyGet, hv, he]
      · refine ⟨{ st with ref_success := st.ref_success + 1 }, ?_⟩
        simp [refStep, pyGet, hv, he]
    | null =>
      refine ⟨{ st with ref_fail := st.ref_fail + 1 }, ?_⟩
      simp [refStep, pyGet, hv]
    | bool b2 =>
      refine ⟨{ st with ref_fail := st.ref_fail + 1 }, ?_⟩
      simp [refStep, pyGet, hv]
    | int n =>
      refine ⟨{ st with ref_fail := st.ref_fail + 1 }, ?_⟩
      simp [refStep, pyGet, hv]
    | str s =>
      refine ⟨{ st with ref_fail := st.ref_fail + 1 }, ?_⟩
      simp [refStep, pyGet, hv]
    | arr xs =>
      refine ⟨{ st with ref_fail := st.ref_fail + 1 }, ?_⟩
      simp [refStep, pyGet, hv]

lemma tabStep_dict_eq (ekvs : List (String × JVal)) (st st1 st2 st3 st4 : Stats)
    (h1 : scStep (dGetD ekvs "critiques" (.dict [])) st = .ok st1)
    (h2 : diffStep (truthy (dGetD ekvs "removed" (.bool false)))
            (dGetD ekvs "critiques" (.dict [])) st1 = .ok st2)
    (h3 : udStep (truthy (dGetD ekvs "removed" (.bool false)))
            (dGetD ekvs "critiques" (.dict [])) st2 = .ok st3)
    (h4 : refStep (truthy (dGetD ekvs "removed" (.bool false))) (.dict ekvs) st3 = .ok st4) :
    tabStep st (.dict ekvs) = .ok st4 := by
  simp only [tabStep, pyGet, h1, h2, h3, h4]

lemma tabStep_ok_decomp (e : JVal) (st st' : Stats) (h : tabStep st e = .ok st') :
    ∃ ekvs st1 st2 st3, e = .dict ekvs ∧
      scStep (dGetD ekvs "critiques" (.dict [])) st = .ok st1 ∧
      diffStep (truthy (dGetD ekvs "removed" (.bool false)))
        (dGetD ekvs "critiques" (.dict [])) st1 = .ok st2 ∧
      udStep (truthy (dGetD ekvs "removed" (.bool false)))
        (dGetD ekvs "critiques" (.dict [])) st2 = .ok st3 ∧
      refStep (truthy (dGetD ekvs "removed" (.bool false))) (.dict ekvs) st3 = .ok st' := by
  cases e with
  | dict ekvs =>
    refine ⟨ekvs, ?_⟩
    simp only [tabStep, pyGet] at h
    cases hs1 : scStep (dGetD ekvs "critiques" (.dict [])) st with
    | error e1 => rw [hs1] at h; simp at h
    | ok st1 =>
      rw [hs1] at h
      simp only at h
      cases hs2 : diffStep (truthy (dGetD ekvs "removed" (.bool false)))
          (dGetD ekvs "critiques" (.dict [])) st1 with
      | error e2 => rw [hs2] at h; simp at h
      | ok st2 =>
        rw [hs2] at h
        simp only at h
        cases hs3 : udStep (truthy (dGetD ekvs "removed" (.bool false)))
            (dGetD ekvs "critiques" (.dict [])) st2 with
        | error e3 => rw [hs3] at h; simp at h
        | ok st3 =>
          rw [hs3] at h
          simp only at h
          exact ⟨st1, st2, st3, rfl, rfl, hs2, hs3, h⟩
  | null => simp [tabStep, pyGet] at h
  | bool b => simp [tabStep, pyGet] at h
  | int n => simp [tabStep, pyGet] at h
  | str s => simp [tabStep, pyGet] at h
  | arr xs => simp [tabStep, pyGet] at h

lemma scStep_preserves (c : JVal) (st st' : Stats) (h : scStep c st = .ok st') :
    st'.diff_pass = st.diff_pass ∧ st'.diff_fail = st.diff_fail ∧
    st'.diff_removed = st.diff_removed ∧ st'.ud_pass = st.ud_pass ∧
    st'.ud_fail = st.ud_fail ∧ st'.ud_removed = st.ud_removed ∧
    st'.ref_success = st.ref_success ∧ st'.ref_fail = st.ref_fail := by
  rcases scStep_ok_cases c st st' h with h' | h' | h' <;> subst h' <;>
    exact ⟨rfl, rfl, rfl, rfl, rfl, rfl, rfl, rfl⟩

lemma diffStep_preserves (b : Bool) (c : JVal) (st st' : Stats) (h : diffStep b c st = .ok st') :
    st'.sc_pass = st.sc_pass ∧ st'.sc_fail = st.sc_fail ∧
    st'.ud_pass = st.ud_pass ∧ st'.ud_fail = st.ud_fail ∧
    st'.ud_removed = st.ud_removed ∧
    st'.ref_success = st.ref_success ∧ st'.ref_fail = st.ref_fail := by
  rcases diffStep_ok_cases b c st st' h with h' | h' | h' | h' <;> subst h' <;>
    exact ⟨rfl, rfl, rfl, rfl, rfl, rfl, rfl⟩

lemma udStep_preserves (b : Bool) (c : JVal) (st st' : Stats) (h : udStep b c st = .ok st') :
    st'.sc_pass = st.sc_pass ∧ st'.sc_fail = st.sc_fail ∧
    st'.diff_pass = st.diff_pass ∧ st'.diff_fail = st.diff_fail ∧
    st'.diff_removed = st.diff_removed ∧
    st'.ref_success = st.ref_success ∧ st'.ref_fail = st.ref_fail := by
  rcases udStep_ok_cases b c st st' h with h' | h' | h' | h' <;> subst h' <;>
    exact ⟨rfl, rfl, rfl, rfl, rfl, rfl, rfl⟩

lemma refStep_preserves (b : Bool) (e : JVal) (st st' : Stats) (h : refStep b e st = .ok st') :
    st'.sc_pass = st.sc_pass ∧ st'.sc_fail = st.sc_fail ∧
    st'.diff_pass = st.diff_pass ∧ st'.diff_fail = st.diff_fail ∧
    st'.diff_removed = st.diff_removed ∧
    st'.ud_pass = st.ud_pass ∧ st'.ud_fail = st.ud_fail ∧
    st'.ud_removed = st.ud_removed := by
  rcases refStep_ok_cases b e st st' h with h' | h' | h' <;> subst h' <;>
    exact ⟨rfl, rfl, rfl, rfl, rfl, rfl, rfl, rfl⟩

/-- C1 counterexample: a removed record whose `useful_derivation` critique
object carries `is_useful_derivation: true` is tallied into the `pass`
counter, not the `removed` counter — the claimed precedence of removal over
the flag does not hold. -/
theorem C1_counterexample :
    tabFold [.dict [("removed", .bool true),
      ("critiques", .dict [("useful_derivation",
        .dict [("is_useful_derivation", .bool true)])])]] =
      .ok { initStats with ud_pass := 1 } := by
  rfl

/-- C1 amended: for a removed record whose critiques dict stores a
`useful_derivation` critique object `kvs`, the tabulator increments the
`removed` counter only when the record's `is_useful_derivation` value
(defaulting to true when absent) is falsy; a removed record whose flag is
truthy is counted as `pass`, and a removed record lacking the flag is counted
as `fail`. -/
theorem C1_amended (ekvs ckvs kvs : List (String × JVal)) (st : Stats)
    (hc : dGetD ekvs "critiques" (.dict []) = .dict ckvs)
    (hrem : truthy (dGetD ekvs "removed" (.bool false)) = true)
    (hud : ckvs.find? (fun kv => kv.1 == "useful_derivation") =
      some ("useful_derivation", .dict kvs)) :
    ∃ st', tabStep st (.dict ekvs) = .ok st' ∧
      st'.ud_removed = st.ud_removed +
        (if truthy (dGetD kvs "is_useful_derivation" (.bool true)) = true then 0 else 1) ∧
      st'.ud_pass = st.ud_pass +
        (if truthy (dGetD kvs "is_useful_derivation" (.bool true)) = true ∧
            truthy (dGetD kvs "is_useful_derivation" (.bool false)) = true then 1 else 0) ∧
      st'.ud_fail = st.ud_fail +
        (if truthy (dGetD kvs "is_useful_derivation" (.bool true)) = true ∧
            ¬ truthy (dGetD kvs "is_useful_derivation" (.bool false)) = true
         then 1 else 0) := by
  obtain ⟨st1, h1⟩ := scStep_dict_ok ckvs st
  obtain ⟨st2, h2⟩ := diffStep_dict_ok true ckvs st1
  have hcat : catLookup "useful_derivation" (.dict ckvs) = .ok (some kvs) :=
    catLookup_dict_some _ _ _ _ hud rfl
  obtain ⟨-, -, -, e1p, e1f, e1r, -, -⟩ := scStep_preserves _ _ _ h1
  obtain ⟨-, -, e2p, e2f, e2r, -, -⟩ := diffStep_preserves _ _ _ _ h2
  have hfin : ∀ st3, udStep true (.dict ckvs) st2 = .ok st3 →
      tabStep st (.dict ekvs) = .ok st3 := by
    intro st3 h3
    refine tabStep_dict_eq ekvs st st1 st2 st3 st3 ?_ ?_ ?_ ?_
    · rw [hc]; exact h1
    · rw [hc, hrem]; exact h2
    · rw [hc, hrem]; exact h3
    · rw [hrem]; simp [refStep]
  by_cases hvT : truthy (dGetD kvs "is_useful_derivation" (.bool true)) = true
  · by_cases hvF : truthy (dGetD kvs "is_useful_derivation" (.bool false)) = true
    · have h3 : udStep true (.dict ckvs) st2 = .ok { st2 with ud_pass := st2.ud_pass + 1 } := by
        simp [udStep, hcat, hvT, hvF]
      refine ⟨_, hfin _ h3, ?_, ?_, ?_⟩ <;> simp [hvT, hvF] <;> omega
    · have h3 : udStep true (.dict ckvs) st2 = .ok { st2 with ud_fail := st2.ud_fail + 1 } := by
        simp [udStep, hcat, hvT, hvF]
      refine ⟨_, hfin _ h3, ?_, ?_, ?_⟩ <;> simp [hvT, hvF] <;> omega
  · have h3 : udStep true (.dict ckvs) st2 = .ok { st2 with ud_removed := st2.ud_removed + 1 } := by
      simp [udStep, hcat, hvT]
    refine ⟨_, hfin _ h3, ?_, ?_, ?_⟩ <;> simp [hvT] <;> omega

/-- Closed instance of `C1_amended`: a removed record with the flag
explicitly false is tallied as `removed`. -/
theorem C1_witness :
    ∃ st', tabStep initStats (.dict [("removed", .bool true),
      ("critiques", .dict [("useful_derivation",
        .dict [("is_useful_derivation", .bool false)])])]) = .ok st' ∧
      st'.ud_removed = 1 := by
  obtain ⟨st', hstep, hrem, -, -⟩ :=
    C1_amended [("removed", .bool true),
      ("critiques", .dict [("useful_derivation",
        .dict [("is_useful_derivation", .bool false)])])]
      [("useful_derivation", .dict [("is_useful_derivation", .bool false)])]
      [("is_useful_derivation", .bool false)] initStats rfl rfl rfl
  refine ⟨st', hstep, ?_⟩
  rw [hrem]
  rfl

/-- C2 counterexample: a non-removed record with NO `refined_problem` key is
tallied as a refinement success (the `.get` default `{}` is a dict without an
`error` key), while the claim demands `fail` when `refined_problem` is
absent. -/
theorem C2_counterexample :
    tabFold [.dict []] = .ok { initStats with ref_success := 1 } := by
  rfl

/-- C2 amended: for a non-removed record the refinement counter is a success
exactly when the `refined_problem` value — defaulting to an empty dict when
the key is absent, so an absent refined problem counts as success — is a dict
without an `error` key; otherwise it is a fail.  Removed records contribute to
neither counter. -/
theorem C2_amended (ekvs ckvs : List (String × JVal)) (st : Stats)
    (hc : dGetD ekvs "critiques" (.dict []) = .dict ckvs) :
    ∃ st', tabStep st (.dict ekvs) = .ok st' ∧
      (truthy (dGetD ekvs "removed" (.bool false)) = true →
        st'.ref_success = st.ref_success ∧ st'.ref_fail = st.ref_fail) ∧
      (truthy (dGetD ekvs "removed" (.bool false)) = false →
        (∀ rkvs, dGetD ekvs "refined_problem" (.dict []) = .dict rkvs →
            dHas rkvs "error" = false →
          st'.ref_success = st.ref_success + 1 ∧ st'.ref_fail = st.ref_fail) ∧
        ((∀ rkvs, dGetD ekvs "refined_problem" (.dict []) = .dict rkvs →
            dHas rkvs "error" = true) →
          st'.ref_fail = st.ref_fail + 1 ∧ st'.ref_success = st.ref_success)) := by
  obtain ⟨st1, h1⟩ := scStep_dict_ok ckvs st
  obtain ⟨st2, h2⟩ := diffStep_dict_ok (truthy (dGetD ekvs "removed" (.bool false))) ckvs st1
  obtain ⟨st3, h3⟩ := udStep_dict_ok (truthy (dGetD ekvs "removed" (.bool false))) ckvs st2
  obtain ⟨-, -, -, -, -, -, e1s, e1f⟩ := scStep_preserves _ _ _ h1
  obtain ⟨-, -, -, -, -, e2s, e2f⟩ := diffStep_preserves _ _ _ _ h2
  obtain ⟨-, -, -, -, -, e3s, e3f⟩ := udStep_preserves _ _ _ _ h3
  have hfin : ∀ st4, refStep (truthy (dGetD ekvs "removed" (.bool false)))
      (.dict ekvs) st3 = .ok st4 → tabStep st (.dict ekvs) = .ok st4 := by
    intro st4 h4
    refine tabStep_dict_eq ekvs st st1 st2 st3 st4 ?_ ?_ ?_ h4
    · rw [hc]; exact h1
    · rw [hc]; exact h2
    · rw [hc]; exact h3
  cases hbv : truthy (dGetD ekvs "removed" (.bool false)) with
  | true =>
    have h4 : refStep true (.dict ekvs) st3 = .ok st3 := by simp [refStep]
    refine ⟨st3, hfin st3 (by rw [hbv]; exact h4), fun _ => ⟨by omega, by omega⟩,
      fun hf => by simp at hf⟩
  | false =>
    cases hrv : dGetD ekvs "refined_problem" (.dict []) with
    | dict rkvs =>
      by_cases he : dHas rkvs "error" = true
      · have h4 : refStep false (.dict ekvs) st3 =
            .ok { st3 with ref_fail := st3.ref_fail + 1 } := by
          simp [refStep, pyGet, hrv, he]
        refine ⟨_, hfin _ (by rw [hbv]; exact h4), fun ht => by simp at ht, fun _ => ⟨?_, ?_⟩⟩
        · intro rkvs' hrv' he'
          injection hrv' with h'
          subst h'
          rw [he] at he'
          simp at he'
        · intro _
          constructor <;> simp <;> omega
      · have h4 : refStep false (.dict ekvs) st3 =
            .ok { st3 with ref_success := st3.ref_success + 1 } := by
          simp [refStep, pyGet, hrv, he]
        refine ⟨_, hfin _ (by rw [hbv]; exact h4), fun ht => by simp at ht, fun _ => ⟨?_, ?_⟩⟩
        · intro rkvs' hrv' he'
          constructor <;> simp <;> omega
        · intro hall
          exact absurd (hall rkvs rfl) he
    | null =>
      have h4 : refStep false (.dict ekvs) st3 =
          .ok { st3 with ref_fail := st3.ref_fail + 1 } := by
        simp [refStep, pyGet, hrv]
      refine ⟨_, hfin _ (by rw [hbv]; exact h4), fun ht => by simp at ht, fun _ => ⟨?_, ?_⟩⟩
      · intro rkvs' hrv' he'
        cases hrv'
      · intro _
        constructor <;> simp <;> omega
    | bool b2 =>
      have h4 : refStep false (.dict ekvs) st3 =
          .ok { st3 with ref_fail := st3.ref_fail + 1 } := by
        simp [refStep, pyGet, hrv]
      refine ⟨_, hfin _ (by rw [hbv]; exact h4), fun ht => by simp at ht, fun _ => ⟨?_, ?_⟩⟩
      · intro rkvs' hrv' he'
        cases hrv'
      · intro _
        constructor <;> simp <;> omega
    | int n =>
      have h4 : refStep false (.dict ekvs) st3 =
          .ok { st3 with ref_fail := st3.ref_fail + 1 } := by
        simp [refStep, pyGet, hrv]
      refine ⟨_, hfin _ (by rw [hbv]; exact h4), fun ht => by simp at ht, fun _ => ⟨?_, ?_⟩⟩
      · intro rkvs' hrv' he'
        cases hrv'
      · intro _
        constructor <;> simp <;> omega
    | str s =>
      have h4 : refStep false (.dict ekvs) st3 =
          .ok { st3 with ref_fail := st3.ref_fail + 1 } := by
        simp [refStep, pyGet, hrv]
      refine ⟨_, hfin _ (by rw [hbv]; exact h4), fun ht => by simp at ht, fun _ => ⟨?_, ?_⟩⟩
      · intro rkvs' hrv' he'
        cases hrv'
      · intro _
        constructor <;> simp <;> omega
    | arr xs =>
      have h4 : refStep false (.dict ekvs) st3 =
          .ok { st3 with ref_fail := st3.ref_fail + 1 } := by
        simp [refStep, pyGet, hrv]
      refine ⟨_, hfin _ (by rw [hbv]; exact h4), fun ht => by simp at ht, fun _ => ⟨?_, ?_⟩⟩
      · intro rkvs' hrv' he'
        cases hrv'
      · intro _
        constructor <;> simp <;> omega

/-- Closed instance of `C2_amended`: the empty record (no `refined_problem`
key) is a refinement success. -/
theorem C2_witness :
    ∃ st', tabStep initStats (.dict []) = .ok st' ∧ st'.ref_success = 1 := by
  obtain ⟨st', hstep, -, hparts⟩ := C2_amended [] [] initStats rfl
  obtain ⟨hsucc, -⟩ := hparts rfl
  obtain ⟨h1, -⟩ := hsucc [] rfl rfl
  exact ⟨st', hstep, by rw [h1]; rfl⟩

lemma scStep_own_total (c : JVal) (st st' : Stats) (h : scStep c st = .ok st') :
    st'.sc_pass + st'.sc_fail ≤ st.sc_pass + st.sc_fail + 1 := by
  rcases scStep_ok_cases c st st' h with h' | h' | h' <;> subst h' <;> simp <;> omega

lemma diffStep_own_total (b : Bool) (c : JVal) (st st' : Stats) (h : diffStep b c st = .ok st') :
    st'.diff_pass + st'.diff_fail + st'.diff_removed ≤
      st.diff_pass + st.diff_fail + st.diff_removed + 1 := by
  rcases diffStep_ok_cases b c st st' h with h' | h' | h' | h' <;> subst h' <;> simp <;> omega

lemma udStep_own_total (b : Bool) (c : JVal) (st st' : Stats) (h : udStep b c st = .ok st') :
    st'.ud_pass + st'.ud_fail + st'.ud_removed ≤
      st.ud_pass + st.ud_fail + st.ud_removed + 1 := by
  rcases udStep_ok_cases b c st st' h with h' | h' | h' | h' <;> subst h' <;> simp <;> omega

lemma refStep_own_total (b : Bool) (e : JVal) (st st' : Stats) (h : refStep b e st = .ok st') :
    st'.ref_success + st'.ref_fail ≤ st.ref_success + st.ref_fail + 1 := by
  rcases refStep_ok_cases b e st st' h with h' | h' | h' <;> subst h' <;> simp <;> omega

lemma tabStep_totals (e : JVal) (st st' : Stats) (h : tabStep st e = .ok st') :
    st'.sc_pass + st'.sc_fail ≤ st.sc_pass + st.sc_fail + 1 ∧
    st'.diff_pass + st'.diff_fail + st'.diff_removed ≤
      st.diff_pass + st.diff_fail + st.diff_removed + 1 ∧
    st'.ud_pass + st'.ud_fail + st'.ud_removed ≤
      st.ud_pass + st.ud_fail + st.ud_removed + 1 ∧
    st'.ref_success + st'.ref_fail ≤ st.ref_success + st.ref_fail + 1 := by
  obtain ⟨ekvs, st1, st2, st3, -, h1, h2, h3, h4⟩ := tabStep_ok_decomp e st st' h
  have o1 := scStep_own_total _ _ _ h1
  have o2 := diffStep_own_total _ _ _ _ h2
  have o3 := udStep_own_total _ _ _ _ h3
  have o4 := refStep_own_total _ _ _ _ h4
  obtain ⟨q1, q2, q3, q4, q5, q6, q7, q8⟩ := scStep_preserves _ _ _ h1
  obtain ⟨r1, r2, r3, r4, r5, r6, r7⟩ := diffStep_preserves _ _ _ _ h2
  obtain ⟨u1, u2, u3, u4, u5, u6, u7⟩ := udStep_preserves _ _ _ _ h3
  obtain ⟨f1, f2, f3, f4, f5, f6, f7, f8⟩ := refStep_preserves _ _ _ _ h4
  refine ⟨?_, ?_, ?_, ?_⟩ <;> omega

lemma tabFold_totals_aux (entries : List JVal) :
    ∀ st0 stF, entries.foldlM tabStep st0 = .ok stF →
      stF.sc_pass + stF.sc_fail ≤ st0.sc_pass + st0.sc_fail + entries.length ∧
      stF.diff_pass + stF.diff_fail + stF.diff_removed ≤
        st0.diff_pass + st0.diff_fail + st0.diff_removed + entries.length ∧
      stF.ud_pass + stF.ud_fail + stF.ud_removed ≤
        st0.ud_pass + st0.ud_fail + st0.ud_removed + entries.length ∧
      stF.ref_success + stF.ref_fail ≤ st0.ref_success + st0.ref_fail + entries.length := by
  induction entries with
  | nil =>
    intro st0 stF h
    simp only [List.foldlM_nil] at h
    injection h with h
    subst h
    simp
  | cons e rest ih =>
    intro st0 stF h
    rw [List.foldlM_cons] at h
    cases hs : tabStep st0 e with
    | error er =>
      rw [hs] at h
      simp only [Bind.bind, Except.bind] at h
      cases h
    | ok st1 =>
      rw [hs] at h
      simp only [Bind.bind, Except.bind] at h
      obtain ⟨a1, a2, a3, a4⟩ := tabStep_totals e st0 st1 hs
      obtain ⟨b1, b2, b3, b4⟩ := ih st1 stF h
      simp only [List.length_cons]
      refine ⟨?_, ?_, ?_, ?_⟩ <;> omega

/-- C10: when the critiques dict lacks one of the three category keys — or
stores a non-dict under it — the tally step leaves every counter of that
category unchanged; consequently each category's pass+fail+removed total over
a whole run never exceeds the number of records. -/
theorem C10_category_guard (ekvs ckvs : List (String × JVal)) (st st' : Stats)
    (hc : dGetD ekvs "critiques" (.dict []) = .dict ckvs)
    (hstep : tabStep st (.dict ekvs) = .ok st') :
    ((ckvs.find? (fun kv => kv.1 == "self_containment") = none ∨
      (∃ kv, ckvs.find? (fun kv => kv.1 == "self_containment") = some kv ∧
        ∀ kvs, kv.2 ≠ .dict kvs)) →
      st'.sc_pass = st.sc_pass ∧ st'.sc_fail = st.sc_fail) ∧
    ((ckvs.find? (fun kv => kv.1 == "difficulty") = none ∨
      (∃ kv, ckvs.find? (fun kv => kv.1 == "difficulty") = some kv ∧
        ∀ kvs, kv.2 ≠ .dict kvs)) →
      st'.diff_pass = st.diff_pass ∧ st'.diff_fail = st.diff_fail ∧
      st'.diff_removed = st.diff_removed) ∧
    ((ckvs.find? (fun kv => kv.1 == "useful_derivation") = none ∨
      (∃ kv, ckvs.find? (fun kv => kv.1 == "useful_derivation") = some kv ∧
        ∀ kvs, kv.2 ≠ .dict kvs)) →
      st'.ud_pass = st.ud_pass ∧ st'.ud_fail = st.ud_fail ∧
      st'.ud_removed = st.ud_removed) ∧
    (∀ entries stF, tabFold entries = .ok stF →
      stF.sc_pass + stF.sc_fail ≤ entries.length ∧
      stF.diff_pass + stF.diff_fail + stF.diff_removed ≤ entries.length ∧
      stF.ud_pass + stF.ud_fail + stF.ud_removed ≤ entries.length ∧
      stF.ref_success + stF.ref_fail ≤ entries.length) := by
  obtain ⟨ekvs', st1, st2, st3, heq, h1, h2, h3, h4⟩ :=
    tabStep_ok_decomp (.dict ekvs) st st' hstep
  injection heq with heq
  subst heq
  rw [hc] at h1 h2 h3
  obtain ⟨q1, q2, q3, q4, q5, q6, q7, q8⟩ := scStep_preserves _ _ _ h1
  obtain ⟨r1, r2, r3, r4, r5, r6, r7⟩ := diffStep_preserves _ _ _ _ h2
  obtain ⟨u1, u2, u3, u4, u5, u6, u7⟩ := udStep_preserves _ _ _ _ h3
  obtain ⟨f1, f2, f3, f4, f5, f6, f7, f8⟩ := refStep_preserves _ _ _ _ h4
  refine ⟨?_, ?_, ?_, ?_⟩
  · intro hskip
    have hcat : catLookup "self_containment" (.dict ckvs) = .ok none :=
      catLookup_dict_none _ _ hskip
    have h1' : (Except.ok st : Except String Stats) = Except.ok st1 := by
      rw [← h1]
      simp [scStep, hcat]
    injection h1' with h1'
    subst h1'
    constructor <;> omega
  · intro hskip
    have hcat : catLookup "difficulty" (.dict ckvs) = .ok none :=
      catLookup_dict_none _ _ hskip
    have h2' : (Except.ok st1 : Except String Stats) = Except.ok st2 := by
      rw [← h2]
      simp [diffStep, hcat]
    injection h2' with h2'
    subst h2'
    refine ⟨?_, ?_, ?_⟩ <;> omega
  · intro hskip
    have hcat : catLookup "useful_derivation" (.dict ckvs) = .ok none :=
      catLookup_dict_none _ _ hskip
    have h3' : (Except.ok st2 : Except String Stats) = Except.ok st3 := by
      rw [← h3]
      simp [udStep, hcat]
    injection h3' with h3'
    subst h3'
    refine ⟨?_, ?_, ?_⟩ <;> omega
  · intro entries stF hfold
    have := tabFold_totals_aux entries initStats stF hfold
    simpa [initStats] using this

/-- Closed instance of `C10_category_guard`: a record whose critiques dict
stores a string under `difficulty` and nothing under `useful_derivation`
leaves both categories' counters at zero, and a one-record run keeps every
total at most 1. -/
theorem C10_witness :
    ∃ st', tabStep initStats (.dict [("critiques",
        .dict [("difficulty", .str "broken"), ("self_containment",
          .dict [("is_self_contained", .bool true)])])]) = .ok st' ∧
      st'.diff_pass = 0 ∧ st'.diff_fail = 0 ∧ st'.diff_removed = 0 ∧
      st'.ud_pass = 0 ∧ st'.ud_fail = 0 ∧ st'.ud_removed = 0 ∧
      st'.sc_pass + st'.sc_fail ≤ 1 := by
  have hstep : tabStep initStats (.dict [("critiques",
      .dict [("difficulty", .str "broken"), ("self_containment",
        .dict [("is_self_contained", .bool true)])])]) =
      .ok { initStats with sc_pass := 1, ref_success := 1 } := by rfl
  obtain ⟨-, hdiff, hud, hfold⟩ :=
    C10_category_guard [("critiques",
        .dict [("difficulty", .str "broken"), ("self_containment",
          .dict [("is_self_contained", .bool true)])])]
      [("difficulty", .str "broken"), ("self_containment",
        .dict [("is_self_contained", .bool true)])]
      initStats { initStats with sc_pass := 1, ref_success := 1 } rfl hstep
  obtain ⟨d1, d2, d3⟩ := hdiff (Or.inr ⟨("difficulty", .str "broken"), rfl,
    fun kvs h => JVal.noConfusion h⟩)
  obtain ⟨u1, u2, u3⟩ := hud (Or.inl rfl)
  exact ⟨_, hstep, d1, d2, d3, u1, u2, u3, by simp [initStats]⟩

lemma statusHeader_not_prefix (rest : String) :
    ¬ (statusHeader.data <+: (refinedHeader ++ rest).data) := by
  intro h
  have hd : (refinedHeader ++ rest).data = refinedHeader.data ++ rest.data := by
    simp [String.data_append]
  rw [hd] at h
  have hpre : refinedHeader.data <+: refinedHeader.data ++ rest.data :=
    List.prefix_append _ _
  have hlen : statusHeader.data.length ≤ refinedHeader.data.length := by decide
  have := List.prefix_of_prefix_length_le h hpre hlen
  exact absurd this (by decide)

/-- C4: the outcome subsection follows the three-way precedence — a truthy
`removed` always yields the removal notice built from the escaped
`removal_reason` (default text when absent), regardless of
`included_in_dataset` or `refined_problem`; otherwise a falsy
`included_in_dataset` yields the fixed exclusion notice; otherwise the
section opens with the "Refined Problem" heading and never with the
"Problem Status" heading the two notices share. -/
theorem C4_outcome_precedence (ekvs : List (String × JVal)) :
    (truthy (dGetD ekvs "removed" (.bool false)) = true →
      renderOutcome (.dict ekvs) =
        .ok (removalNotice (dGetD ekvs "removal_reason" (.str "Marked for removal")))) ∧
    (truthy (dGetD ekvs "removed" (.bool false)) = false →
      truthy (dGetD ekvs "included_in_dataset" (.bool true)) = false →
      renderOutcome (.dict ekvs) = .ok exclusionNotice) ∧
    (truthy (dGetD ekvs "removed" (.bool false)) = false →
      truthy (dGetD ekvs "included_in_dataset" (.bool true)) = true →
      ∀ out, renderOutcome (.dict ekvs) = .ok out →
        (∃ rest, out = refinedHeader ++ rest) ∧
        ¬ (statusHeader.data <+: out.data)) := by
  refine ⟨?_, ?_, ?_⟩
  · intro hrem
    simp [renderOutcome, pyGet, hrem]
  · intro hrem hinc
    simp [renderOutcome, pyGet, hrem, hinc]
  · intro hrem hinc out hout
    simp only [renderOutcome, pyGet, hrem, hinc, Bool.false_eq_true, if_false,
      Bool.not_true, if_true] at hout
    have hform : ∃ rest, out = refinedHeader ++ rest := by
      cases hrv : dGetD ekvs "refined_problem" (.dict []) with
      | dict rkvs =>
        rw [hrv] at hout
        simp only at hout
        by_cases he : dHas rkvs "error" = true
        · rw [if_pos he] at hout
          injection hout with h'
          exact ⟨errRefiningNotice, h'.symm⟩
        · rw [if_neg he] at hout
          cases hsb : solutionBlock (dGetD rkvs
              (if dHas rkvs "final_solution" then "final_solution" else "answer")
              (.str "No solution")) with
          | error e => rw [hsb] at hout; cases hout
          | ok rsB =>
            rw [hsb] at hout
            simp only at hout
            injection hout with h'
            refine ⟨"\\paragraph*\x7bRefined Problem Statement:\x7d\n" ++
              (pyStr (dGetD rkvs
                (if dHas rkvs "problem_statement" then "problem_statement" else "question")
                (.str "No refined problem statement")) ++
               ("\n\n\\paragraph*\x7bRefined Solution:\x7d\n" ++
                (rsB ++ "\n\n"))), ?_⟩
            rw [← h']
            simp [String.append_assoc]
      | null =>
        rw [hrv] at hout
        simp only at hout
        injection hout with h'
        exact ⟨errRefiningNotice, h'.symm⟩
      | bool b2 =>
        rw [hrv] at hout
        simp only at hout
        injection hout with h'
        exact ⟨errRefiningNotice, h'.symm⟩
      | int n =>
        rw [hrv] at hout
        simp only at hout
        injection hout with h'
        exact ⟨errRefiningNotice, h'.symm⟩
      | str s =>
        rw [hrv] at hout
        simp only at hout
        injection hout with h'
        exact ⟨errRefiningNotice, h'.symm⟩
      | arr xs =>
        rw [hrv] at hout
        simp only at hout
        injection hout with h'
        exact ⟨errRefiningNotice, h'.symm⟩
    obtain ⟨rest, hr⟩ := hform
    subst hr
    exact ⟨⟨rest, rfl⟩, statusHeader_not_prefix rest⟩

/-- Closed instance of `C4_outcome_precedence`: a removed record shows the
removal notice even though it is also excluded; a merely excluded record
shows the exclusion notice; the empty record shows a "Refined Problem"
section that does not start with the status heading. -/
theorem C4_witness :
    renderOutcome (.dict [("removed", .bool true), ("included_in_dataset", .bool false)]) =
      .ok (removalNotice (.str "Marked for removal")) ∧
    renderOutcome (.dict [("included_in_dataset", .bool false)]) = .ok exclusionNotice ∧
    ∃ out, renderOutcome (.dict []) = .ok out ∧
      (∃ rest, out = refinedHeader ++ rest) ∧ ¬ (statusHeader.data <+: out.data) := by
  refine ⟨(C4_outcome_precedence
      [("removed", .bool true), ("included_in_dataset", .bool false)]).1 rfl,
    (C4_outcome_precedence [("included_in_dataset", .bool false)]).2.1 rfl rfl, ?_⟩
  have h := (C4_outcome_precedence []).2.2 rfl rfl
  exact ⟨_, rfl, h _ rfl⟩

lemma solutionBlock_ok (v : JVal) (hg : goodSolution v = true) :
    ∃ s, solutionBlock v = .ok s := by
  cases v with
  | str s => exact ⟨_, rfl⟩
  | arr xs => exact ⟨"", rfl⟩
  | dict kvs =>
    simp only [goodSolution, Bool.not_eq_true'] at hg
    exact ⟨"", by simp [solutionBlock, hg]⟩
  | null => simp [goodSolution] at hg
  | bool b => simp [goodSolution] at hg
  | int n => simp [goodSolution] at hg

lemma dGetD_eq_of_find? (kvs : List (String × JVal)) (k : String) (d : JVal)
    (kv : String × JVal) (hf : kvs.find? (fun kv => kv.1 == k) = some kv) :
    dGetD kvs k d = kv.2 := by
  simp [dGetD, hf]

lemma issuesFold_ok (xs : List JVal)
    (hall : ∀ x ∈ xs, (match x with | JVal.dict _ => true | _ => false) = true) :
    ∀ acc : String, ∃ s,
      xs.foldlM (fun acc issue => (renderIssue issue).map (acc ++ ·)) acc = .ok s := by
  induction xs with
  | nil => intro acc; exact ⟨acc, rfl⟩
  | cons x rest ih =>
    intro acc
    have hx := hall x (by simp)
    cases x with
    | dict kvs =>
      simp only [List.foldlM_cons]
      have hr : ∃ r, renderIssue (.dict kvs) = .ok r := ⟨_, rfl⟩
      obtain ⟨r, hr⟩ := hr
      rw [hr]
      simp only [Except.map, Bind.bind, Except.bind]
      exact ih (fun y hy => hall y (by simp [hy])) (acc ++ r)
    | null => simp at hx
    | bool b => simp at hx
    | int n => simp at hx
    | str s => simp at hx
    | arr ys => simp at hx

lemma format_critique_section_ok (k : String) (v : JVal) (hg : goodCritVal v = true) :
    ∃ s, format_critique_section k v = .ok s := by
  cases v with
  | dict kvs =>
    by_cases he : dHas kvs "error" = true
    · exact ⟨critErrorNotice, by simp [format_critique_section, he]⟩
    · simp only [goodCritVal, he, Bool.false_or] at hg
      by_cases ht : truthy (dGetD kvs "issues" (.arr [])) = true
      · simp only [goodIssues, ht, Bool.not_true, Bool.false_or] at hg
        cases hiv : dGetD kvs "issues" (.arr []) with
        | arr xs =>
          rw [hiv] at hg
          simp only at hg
          have hfold := issuesFold_ok xs (by
            intro x hx
            exact List.all_eq_true.mp hg x hx) ""
          obtain ⟨s, hs⟩ := hfold
          cases hX : format_critique_section k (.dict kvs) with
          | ok s2 => exact ⟨s2, rfl⟩
          | error e =>
            exfalso
            simp only [format_critique_section, he, if_neg, ht, if_pos, hiv, pyIter] at hX
            rw [hs] at hX
            rcases Bool.eq_false_or_eq_true (truthy (JVal.arr xs)) with hb | hb <;>
              simp [hb] at hX
        | null => rw [hiv] at hg; simp at hg
        | bool b => rw [hiv] at hg; simp at hg
        | int n => rw [hiv] at hg; simp at hg
        | str s => rw [hiv] at hg; simp at hg
        | dict kvs2 => rw [hiv] at hg; simp at hg
      · cases hX : format_critique_section k (.dict kvs) with
        | ok s2 => exact ⟨s2, rfl⟩
        | error e =>
          exfalso
          simp [format_critique_section, he, ht] at hX
  | null => exact ⟨critErrorNotice, rfl⟩
  | bool b => exact ⟨critErrorNotice, rfl⟩
  | int n => exact ⟨critErrorNotice, rfl⟩
  | str s => exact ⟨critErrorNotice, rfl⟩
  | arr xs => exact ⟨critErrorNotice, rfl⟩

lemma appendCritique_res (ckvs : List (String × JVal)) (k title : String)
    (hg : goodCritEntry ckvs k = true) :
    ∃ s, ∀ acc, appendCritique acc k title (.dict ckvs) = .ok (acc ++ s) := by
  by_cases hd : dHas ckvs k = true
  · have hf : ∃ kv, ckvs.find? (fun kv => kv.1 == k) = some kv := by
      rw [dHas_eq_isSome_find?] at hd
      exact Option.isSome_iff_exists.mp hd
    obtain ⟨kv, hf⟩ := hf
    have hgv : goodCritVal kv.2 = true := by
      simp only [goodCritEntry, hd, Bool.not_true, Bool.false_or] at hg
      rwa [dGetD_eq_of_find? ckvs k .null kv hf] at hg
    obtain ⟨s, hs⟩ := format_critique_section_ok k kv.2 hgv
    refine ⟨"\\paragraph*\x7b" ++ (title ++ (":\x7d\n" ++ (s ++ "\n"))), ?_⟩
    intro acc
    simp only [appendCritique, pyIn, hd, pySubscript, hf, hs, String.append_assoc]
  · refine ⟨"", ?_⟩
    intro acc
    simp only [appendCritique, pyIn, hd, String.append_empty]

lemma renderOutcome_ok (ekvs : List (String × JVal))
    (hout : (truthy (dGetD ekvs "removed" (.bool false)) ||
      !truthy (dGetD ekvs "included_in_dataset" (.bool true)) ||
      (match dGetD ekvs "refined_problem" (.dict []) with
       | .dict rkvs =>
         dHas rkvs "error" ||
         goodSolution (dGetD rkvs
           (if dHas rkvs "final_solution" then "final_solution" else "answer")
           (.str "No solution"))
       | _ => true)) = true) :
    ∃ s, renderOutcome (.dict ekvs) = .ok s := by
  by_cases hrem : truthy (dGetD ekvs "removed" (.bool false)) = true
  · exact ⟨_, by simp [renderOutcome, pyGet, hrem]; rfl⟩
  · rw [Bool.not_eq_true] at hrem
    by_cases hinc : truthy (dGetD ekvs "included_in_dataset" (.bool true)) = true
    · rw [hrem, hinc] at hout
      simp only [Bool.false_or, Bool.not_true] at hout
      cases hrv : dGetD ekvs "refined_problem" (.dict []) with
      | dict rkvs =>
        rw [hrv] at hout
        simp only at hout
        by_cases he : dHas rkvs "error" = true
        · exact ⟨_, by simp [renderOutcome, pyGet, hrem, hinc, hrv, he]; rfl⟩
        · simp only [he, Bool.false_or] at hout
          obtain ⟨sb, hsb⟩ := solutionBlock_ok _ hout
          exact ⟨_, by simp [renderOutcome, pyGet, hrem, hinc, hrv, he, hsb]; rfl⟩
      | null => exact ⟨_, by simp [renderOutcome, pyGet, hrem, hinc, hrv]; rfl⟩
      | bool b2 => exact ⟨_, by simp [renderOutcome, pyGet, hrem, hinc, hrv]; rfl⟩
      | int n => exact ⟨_, by simp [renderOutcome, pyGet, hrem, hinc, hrv]; rfl⟩
      | str s => exact ⟨_, by simp [renderOutcome, pyGet, hrem, hinc, hrv]; rfl⟩
      | arr xs => exact ⟨_, by simp [renderOutcome, pyGet, hrem, hinc, hrv]; rfl⟩
    · rw [Bool.not_eq_true] at hinc
      exact ⟨_, by simp [renderOutcome, pyGet, hrem, hinc]; rfl⟩

/-- C3 counterexample: a record whose `original_problem` is a string, not an
object, makes the Record Renderer raise `AttributeError` (Python
`str.get` does not exist) — the claimed total robustness fails. -/
theorem C3_counterexample :
    generate_critiques_section [.dict [("original_problem", .str "oops")]] =
      .error "AttributeError" := by
  rfl

lemma wellShaped_no_raise (i : Nat) (e : JVal) (hw : wellShaped e = true) :
    (∃ s, renderEntry i e = .ok s) ∧ (∀ st, ∃ st', tabStep st e = .ok st') := by
  cases e with
  | dict ekvs =>
    simp only [wellShaped, Bool.and_eq_true] at hw
    obtain ⟨⟨hA, hB⟩, hC⟩ := hw
    cases hov : dGetD ekvs "original_problem" (.dict []) with
    | dict okvs =>
      rw [hov] at hA
      simp only at hA
      cases hcv : dGetD ekvs "critiques" (.dict []) with
      | dict ckvs =>
        rw [hcv] at hB
        simp only [Bool.and_eq_true] at hB
        obtain ⟨⟨hg1, hg2⟩, hg3⟩ := hB
        obtain ⟨sb, hsb⟩ := solutionBlock_ok _ hA
        obtain ⟨sSC, hSC⟩ := appendCritique_res ckvs "self_containment"
          "Self-Containment Critique" hg1
        obtain ⟨sD, hD⟩ := appendCritique_res ckvs "difficulty" "Difficulty Critique" hg2
        obtain ⟨sU, hU⟩ := appendCritique_res ckvs "useful_derivation"
          "Useful Derivation Critique" hg3
        obtain ⟨so, hso⟩ := renderOutcome_ok ekvs hC
        constructor
        · cases hX : renderEntry i (.dict ekvs) with
          | ok s => exact ⟨s, rfl⟩
          | error e0 =>
            exfalso
            simp only [renderEntry, pyGet, hov, hsb, hcv, hSC, hD, hU, hso] at hX
            exact Except.noConfusion hX
        · intro st
          obtain ⟨st1, k1⟩ := scStep_dict_ok ckvs st
          obtain ⟨st2, k2⟩ :=
            diffStep_dict_ok (truthy (dGetD ekvs "removed" (.bool false))) ckvs st1
          obtain ⟨st3, k3⟩ :=
            udStep_dict_ok (truthy (dGetD ekvs "removed" (.bool false))) ckvs st2
          obtain ⟨st4, k4⟩ :=
            refStep_dict_ok (truthy (dGetD ekvs "removed" (.bool false))) ekvs st3
          exact ⟨st4, tabStep_dict_eq ekvs st st1 st2 st3 st4
            (by rw [hcv]; exact k1) (by rw [hcv]; exact k2) (by rw [hcv]; exact k3) k4⟩
      | null => rw [hcv] at hB; simp at hB
      | bool b => rw [hcv] at hB; simp at hB
      | int n => rw [hcv] at hB; simp at hB
      | str s => rw [hcv] at hB; simp at hB
      | arr xs => rw [hcv] at hB; simp at hB
    | null => rw [hov] at hA; simp at hA
    | bool b => rw [hov] at hA; simp at hA
    | int n => rw [hov] at hA; simp at hA
    | str s => rw [hov] at hA; simp at hA
    | arr xs => rw [hov] at hA; simp at hA
  | null => simp [wellShaped] at hw
  | bool b => simp [wellShaped] at hw
  | int n => simp [wellShaped] at hw
  | str s => simp [wellShaped] at hw
  | arr xs => simp [wellShaped] at hw

/-- C3 amended: the Record Renderer and the Summary Tabulator raise nothing
on records of well-formed container shape (`wellShaped`): the record is an
object, `original_problem` defaults or is an object, solution values are
survivable, `critiques` defaults or is an object with survivable category
values, and the reachable refined solution is survivable.  Keys may freely be
missing — each access falls back to its placeholder default.  (For records of
other shapes — e.g. a string `original_problem` — the renderer raises, see
the counterexample.) -/
theorem C3_amended (i : Nat) (e : JVal) (hw : wellShaped e = true) :
    (∃ s, renderEntry i e = .ok s) ∧ (∀ st, ∃ st', tabStep st e = .ok st') :=
  wellShaped_no_raise i e hw

/-- Closed instance of `C3_amended`: the empty record — every key missing —
renders without error (with placeholder text) and tallies without error. -/
theorem C3_witness :
    (∃ s, renderEntry 0 (.dict []) = .ok s) ∧
    (∃ st', tabStep initStats (.dict []) = .ok st') := by
  obtain ⟨h1, h2⟩ := C3_amended 0 (.dict []) (by decide)
  exact ⟨h1, h2 initStats⟩

lemma tabFold_ok_of_wellShaped (entries : List JVal)
    (hws : ∀ x ∈ entries, wellShaped x = true) :
    ∀ st0, ∃ st, entries.foldlM tabStep st0 = .ok st := by
  induction entries with
  | nil => intro st0; exact ⟨st0, rfl⟩
  | cons e rest ih =>
    intro st0
    obtain ⟨st1, h1⟩ := (wellShaped_no_raise 0 e (hws e (by simp))).2 st0
    obtain ⟨stF, hF⟩ := ih (fun x hx => hws x (by simp [hx])) st1
    refine ⟨stF, ?_⟩
    rw [List.foldlM_cons, h1]
    simpa only [Bind.bind, Except.bind] using hF

lemma renderFold_ok (l : List (Nat × JVal))
    (hws : ∀ p ∈ l, wellShaped p.2 = true) :
    ∀ acc : String, ∃ s,
      l.foldlM (fun acc ie => (renderEntry ie.1 ie.2).map (acc ++ ·)) acc = .ok s := by
  induction l with
  | nil => intro acc; exact ⟨acc, rfl⟩
  | cons p rest ih =>
    intro acc
    obtain ⟨s1, h1⟩ := (wellShaped_no_raise p.1 p.2 (hws p (by simp))).1
    obtain ⟨sF, hF⟩ := ih (fun q hq => hws q (by simp [hq])) (acc ++ s1)
    refine ⟨sF, ?_⟩
    rw [List.foldlM_cons, h1]
    simpa only [Except.map, Bind.bind, Except.bind] using hF

lemma generateDocument_ok (entries : List JVal)
    (hws : ∀ x ∈ entries, wellShaped x = true) :
    ∃ doc, generateDocument (.arr entries) = .ok doc := by
  obtain ⟨st, hst⟩ := tabFold_ok_of_wellShaped entries hws initStats
  obtain ⟨sec, hsec⟩ := renderFold_ok entries.enum
    (fun p hp => hws p.2 (List.snd_mem_of_mem_enum hp)) "\\section*\x7bProblem Details\x7d\n\n"
  cases hX : generateDocument (.arr entries) with
  | ok doc => exact ⟨doc, rfl⟩
  | error e0 =>
    exfalso
    simp only [generateDocument, pyIter, tabFold, hst, generate_critiques_section, hsec] at hX
    exact Except.noConfusion hX

/-- C9 counterexample: the input path exists and holds a valid JSON array,
but its one record has a string `original_problem`; generation raises
`AttributeError` before the output file is opened, so nothing is written and
no success message is printed — refuting "if the path exists, it writes the
complete document". -/
theorem C9_counterexample :
    export_critiques_to_tex "in.json" "out.tex"
      (some (.arr [.dict [("original_problem", .str "oops")]])) =
      .raised "AttributeError" := by
  rfl

/-- C9 amended: a missing input file is reported with a printed error and the
run returns early — nothing written, no exception; an existing file whose
parsed contents are an array of well-shaped records is rendered in full,
written to the output path, and the success message and compile hint are
printed.  (An existing file whose records raise during rendering propagates
the exception and writes nothing — see the counterexample.) -/
theorem C9_amended (inPath outPath : String) (contents : Option JVal) :
    (contents = none →
      export_critiques_to_tex inPath outPath contents =
        .missingFile ("Error: Critiques file not found at \x27" ++ inPath ++ "\x27")) ∧
    (∀ entries, contents = some (.arr entries) →
      (∀ x ∈ entries, wellShaped x = true) →
      ∃ doc, export_critiques_to_tex inPath outPath contents =
        .written doc
          ["LaTeX critiques report successfully generated at \x27" ++ outPath ++ "\x27",
           "You can now compile this file using a LaTeX distribution (like pdflatex) to create a PDF."]) := by
  constructor
  · intro h
    subst h
    rfl
  · intro entries hcont hws
    subst hcont
    obtain ⟨doc, hdoc⟩ := generateDocument_ok entries hws
    exact ⟨doc, by simp [export_critiques_to_tex, hdoc]⟩

/-- Closed instance of `C9_amended`: a missing file yields the printed error
and no write; an existing empty-array file yields a written document. -/
theorem C9_witness :
    export_critiques_to_tex "in.json" "out.tex" none =
      .missingFile "Error: Critiques file not found at \x27in.json\x27" ∧
    ∃ doc, export_critiques_to_tex "in.json" "out.tex" (some (.arr [])) =
      .written doc
        ["LaTeX critiques report successfully generated at \x27out.tex\x27",
         "You can now compile this file using a LaTeX distribution (like pdflatex) to create a PDF."] :=
  ⟨(C9_amended "in.json" "out.tex" none).1 rfl,
   (C9_amended "in.json" "out.tex" (some (.arr []))).2 [] rfl (by simp)⟩

lemma head?_dropWhile_not (p : Char → Bool) (l : List Char) (h : Char)
    (hh : (l.dropWhile p).head? = some h) : p h = false := by
  induction l with
  | nil => simp at hh
  | cons c cs ih =>
    rw [List.dropWhile_cons] at hh
    by_cases hc : p c = true
    · rw [if_pos hc] at hh
      exact ih hh
    · rw [if_neg hc] at hh
      simp only [List.head?_cons, Option.some.injEq] at hh
      subst hh
      simpa using hc

lemma dropWhile_eq_self_of_head (p : Char → Bool) (l : List Char)
    (h : ∀ c, l.head? = some c → p c = false) : l.dropWhile p = l := by
  cases l with
  | nil => rfl
  | cons c cs =>
    rw [List.dropWhile_cons, if_neg]
    simp [h c rfl]

lemma pyStrip_eq_self (l : List Char)
    (h1 : ∀ c, l.head? = some c → c.isWhitespace = false)
    (h2 : ∀ c, l.getLast? = some c → c.isWhitespace = false) :
    pyStrip l = l := by
  unfold pyStrip
  rw [dropWhile_eq_self_of_head _ _ h1]
  rw [dropWhile_eq_self_of_head _ _ (by
    intro c hc
    rw [List.head?_reverse] at hc
    exact h2 c hc)]
  exact List.reverse_reverse l

lemma pyStrip_last_not_ws (l : List Char) (c : Char)
    (hc : (pyStrip l).getLast? = some c) : c.isWhitespace = false := by
  unfold pyStrip at hc
  rw [List.getLast?_reverse] at hc
  exact head?_dropWhile_not _ _ _ hc

lemma pyStrip_head_not_ws (l : List Char) (c : Char)
    (hc : (pyStrip l).head? = some c) : c.isWhitespace = false := by
  unfold pyStrip at hc
  rw [List.head?_reverse] at hc
  obtain ⟨pre, hpre⟩ :
      List.dropWhile Char.isWhitespace ((l.dropWhile Char.isWhitespace).reverse) <:+
        (l.dropWhile Char.isWhitespace).reverse := List.dropWhile_suffix _
  cases hyn : List.dropWhile Char.isWhitespace ((l.dropWhile Char.isWhitespace).reverse) with
  | nil => rw [hyn] at hc; simp at hc
  | cons a ys =>
    rw [hyn] at hc hpre
    have hyl : ((l.dropWhile Char.isWhitespace).reverse).getLast? = some c := by
      rw [← hpre, List.getLast?_append, hc]
      rfl
    rw [List.getLast?_reverse] at hyl
    exact head?_dropWhile_not _ _ _ hyl

lemma pyStrip_idem (l : List Char) : pyStrip (pyStrip l) = pyStrip l :=
  pyStrip_eq_self _ (pyStrip_head_not_ws l) (pyStrip_last_not_ws l)

lemma pyStrip_sandwich (l : List Char) : pyStrip (' ' :: l ++ [' ']) = pyStrip l := by
  unfold pyStrip
  have h1 : List.dropWhile Char.isWhitespace (' ' :: l ++ [' ']) =
      List.dropWhile Char.isWhitespace (l ++ [' ']) := by
    rw [List.cons_append, List.dropWhile_cons_of_pos (by decide)]
  rw [h1, List.dropWhile_append]
  by_cases he : (List.dropWhile Char.isWhitespace l).isEmpty = true
  · rw [if_pos he]
    rw [List.isEmpty_iff] at he
    rw [he]
    rfl
  · rw [if_neg he]
    rw [List.reverse_append]
    have h2 : ([' '] : List Char).reverse = [' '] := rfl
    rw [h2]
    rw [show ([' '] : List Char) ++ (List.dropWhile Char.isWhitespace l).reverse =
      ' ' :: (List.dropWhile Char.isWhitespace l).reverse from rfl]
    rw [List.dropWhile_cons_of_pos (by decide)]

lemma subAnchored_exact (pre suf m : List Char) (hn : '\n' ∉ m) :
    subAnchored pre suf (pre ++ m ++ suf) = m := by
  have hlen : pre.length + suf.length ≤ (pre ++ m ++ suf).length := by
    simp [List.length_append]
  have hpre : pre <+: pre ++ m ++ suf := ⟨m ++ suf, by simp⟩
  have hsuf : suf <:+ pre ++ m ++ suf := ⟨pre ++ m, rfl⟩
  have hmid : ((pre ++ m ++ suf).drop pre.length).take
      ((pre ++ m ++ suf).length - (pre.length + suf.length)) = m := by
    rw [List.append_assoc, List.drop_left]
    have hl : (pre ++ (m ++ suf)).length - (pre.length + suf.length) = m.length := by
      simp [List.length_append]
      omega
    rw [hl, List.take_left]
  simp only [subAnchored]
  rw [hmid]
  rw [if_pos]
  exact ⟨hlen, hpre, hsuf, hn⟩

lemma wrap_decomp (t : List Char) :
    "\\[ ".data ++ t ++ " \\]".data =
    "\\[".data ++ (' ' :: t ++ [' ']) ++ "\\]".data := by
  rw [show "\\[ ".data = ['\\', '[', ' '] from rfl,
      show " \\]".data = [' ', '\\', ']'] from rfl,
      show "\\[".data = ['\\', '['] from rfl,
      show "\\]".data = ['\\', ']'] from rfl]
  simp

lemma wrap_strip_self (t : List Char) :
    pyStrip ("\\[ ".data ++ t ++ " \\]".data) = "\\[ ".data ++ t ++ " \\]".data := by
  apply pyStrip_eq_self
  · intro c hc
    rw [show "\\[ ".data ++ t ++ " \\]".data =
      '\\' :: ('[' :: ' ' :: [] ++ t ++ " \\]".data) from by simp] at hc
    simp only [List.head?_cons, Option.some.injEq] at hc
    subst hc
    rfl
  · intro c hc
    rw [show "\\[ ".data ++ t ++ " \\]".data =
      ("\\[ ".data ++ t ++ [' ', '\\']) ++ [']'] from by simp] at hc
    rw [List.getLast?_concat] at hc
    simp only [Option.some.injEq] at hc
    subst hc
    rfl

lemma innerChars_wrap (t : List Char) (hstrip : pyStrip t = t) (hn : '\n' ∉ t)
    (h2 : subAnchored "\\(".data "\\)".data t = t)
    (h3 : subAnchored "$$".data "$$".data t = t)
    (h4 : subAnchored "$".data "$".data t = t) :
    innerChars ("\\[ ".data ++ t ++ " \\]".data) = t := by
  have hmidn : '\n' ∉ ' ' :: t ++ [' '] := by
    simp only [List.cons_append, List.mem_cons, List.mem_append, List.mem_singleton]
    push_neg
    exact ⟨by decide, hn, by decide⟩
  have hsub1 : subAnchored "\\[".data "\\]".data ("\\[ ".data ++ t ++ " \\]".data) =
      ' ' :: t ++ [' '] := by
    rw [wrap_decomp t]
    exact subAnchored_exact _ _ _ hmidn
  simp only [innerChars]
  rw [wrap_strip_self t, hsub1, pyStrip_sandwich, hstrip, h2, hstrip, h3, hstrip, h4, hstrip]

lemma pyStrip_innerChars (l : List Char) : pyStrip (innerChars l) = innerChars l := by
  simp only [innerChars]
  exact pyStrip_idem _

/-- C6 counterexample: the input `\[\(\(x\)\)\]` is already `\[...\]`-
delimited, yet the formatter's output still carries an unwrapped `\(...\)`
layer, and a second application strips it: the Math-Block Formatter is not
idempotent. -/
theorem C6_counterexample :
    format_tex_display_math (.str (format_tex_display_math
        (.str "\\[\\(\\(x\\)\\)\\]"))) ≠
      format_tex_display_math (.str "\\[\\(\\(x\\)\\)\\]") := by
  decide

/-- C6 amended: the formatter is idempotent on every string whose normalized
content (the text the output wraps) contains no newline and is itself no
longer wrapped in any of the three remaining delimiter pairs `\(...\)`,
`$$...$$`, `$...$`.  (Without these conditions a second application can strip
a further delimiter layer, or double-wrap content that a newline kept the
anchored patterns from matching — see the counterexample.) -/
theorem C6_amended (s : String)
    (hn : '\n' ∉ innerChars s.data)
    (h2 : subAnchored "\\(".data "\\)".data (innerChars s.data) = innerChars s.data)
    (h3 : subAnchored "$$".data "$$".data (innerChars s.data) = innerChars s.data)
    (h4 : subAnchored "$".data "$".data (innerChars s.data) = innerChars s.data) :
    format_tex_display_math (.str (format_tex_display_math (.str s))) =
      format_tex_display_math (.str s) := by
  have key : formatChars (formatChars s.data) = formatChars s.data := by
    have hout : formatChars s.data = "\\[ ".data ++ innerChars s.data ++ " \\]".data := rfl
    calc formatChars (formatChars s.data)
        = "\\[ ".data ++ innerChars (formatChars s.data) ++ " \\]".data := rfl
      _ = "\\[ ".data ++ innerChars s.data ++ " \\]".data := by
          rw [hout, innerChars_wrap (innerChars s.data) (pyStrip_innerChars s.data) hn h2 h3 h4]
      _ = formatChars s.data := rfl
  show String.mk (formatChars (String.mk (formatChars s.data)).data) =
    String.mk (formatChars s.data)
  rw [show (String.mk (formatChars s.data)).data = formatChars s.data from rfl, key]

/-- Closed instance of `C6_amended`: a plain one-line equation is wrapped
once and a second application leaves the block unchanged. -/
theorem C6_witness :
    format_tex_display_math (.str (format_tex_display_math (.str "x = 1"))) =
      format_tex_display_math (.str "x = 1") :=
  C6_amended "x = 1" (by decide) (by decide) (by decide) (by decide)
